import Mathlib

/-!
Verification development for the ldaptoid repository: a read-only LDAP
front-end over an OIDC identity provider.  The definitions below are a
shallow embedding of the TypeScript sources:

* `handleBind`            — `src/services/ldap_server.ts`, `LDAPServer.handleBind`
* `allocate`              — `src/services/id_allocator.ts`, `IdAllocator.allocate`
* `buildSnapshot`         — `src/services/snapshot_builder.ts`, `SnapshotBuilder.buildSnapshot`
* `processGroups`         — `src/services/snapshot_builder.ts`, `SnapshotBuilder.processGroups`
* `performRefresh`        — `src/services/refresh_scheduler.ts`, `RefreshScheduler.performRefresh`
* `executeSearch` etc.    — `src/services/ldap_server.ts`, search path
* `parseFilter`           — `src/protocol/ldap.ts`, `LDAPCodec.parseFilter`

JavaScript strings are modelled as Lean `String`s; for the strings that
occur here (Basic Multilingual Plane, no lone surrogates) a JavaScript
`charCodeAt` unit coincides with the Lean character's code point, which is
what `codeUnits` returns.  JavaScript `Map`s are modelled as association
lists, 64-bit wrap-around arithmetic as `% 2 ^ 64` on `Nat`.
-/

namespace Ldaptoid

/-! ### Small JavaScript string helpers -/

/-- Whitespace test used to model the JavaScript `\s` class (the inputs in
this development only ever contain the four ASCII whitespace characters). -/
def isWs (c : Char) : Bool :=
  c = ' ' || c = '\t' || c = '\n' || c = '\r'

/-- Model of `String.prototype.toLowerCase` restricted to ASCII letters,
which is all the source ever feeds it. -/
def lowerChar (c : Char) : Char :=
  if 'A' ≤ c ∧ c ≤ 'Z' then Char.ofNat (c.toNat + 32) else c

/-- Lower-case a whole string (JavaScript `toLowerCase`). -/
def jsLower (s : String) : String :=
  ⟨s.data.map lowerChar⟩

/-- Model of `String.prototype.trim`. -/
def jsTrim (s : String) : String :=
  ⟨((s.data.dropWhile isWs).reverse.dropWhile isWs).reverse⟩

/-- Remove every whitespace character (JavaScript `replace(/\s+/g, "")`). -/
def stripWs (s : String) : String :=
  ⟨s.data.filter (fun c => !isWs c)⟩

/-! ### LDAP result codes (`src/protocol/ldap.ts`, `LDAPResultCode`) -/

def successCode : Nat := 0

def operationsErrorCode : Nat := 1

def sizeLimitExceededCode : Nat := 4

def authMethodNotSupportedCode : Nat := 7

def invalidCredentialsCode : Nat := 49

def insufficientAccessRightsCode : Nat := 50

def unavailableCode : Nat := 52

def unwillingToPerformCode : Nat := 53

/-! ### Server options and Bind (`LDAPServer`, `src/services/ldap_server.ts`) -/

/-- Options of the `LDAPServer` constructor that the request handlers read
(`port` is transport-only and omitted).  `bindDN`/`bindPassword` are
optional strings; `none` models the JavaScript `undefined`. -/
structure LDAPServerConfig where
  bindDN : Option String
  bindPassword : Option String
  baseDN : String
  sizeLimit : Nat := 1000
  allowAnonymousBind : Bool := false

/-- JavaScript truthiness of an optional string: `undefined` and `""` are
falsy. -/
def truthy : Option String → Bool
  | none => false
  | some s => s ≠ ""

/-- JavaScript `a === b` where `a` is a string and `b` is a string or
`undefined`. -/
def eqOptStr (a : String) (b : Option String) : Bool :=
  match b with
  | none => false
  | some s => a = s

/-- AuthenticationChoice of a decoded BindRequest. -/
inductive Authentication where
  | simple (password : String)
  | sasl (mechanism : String)

/-- Decoded BindRequest fields used by `handleBind`. -/
structure BindRequest where
  name : String
  authentication : Authentication

/-- BindResponse fields produced by `handleBind`. -/
structure BindResponse where
  resultCode : Nat
  matchedDN : String
  diagnosticMessage : String

/-- Embedding of `LDAPServer.handleBind` (src/services/ldap_server.ts:199-229). -/
def handleBind (cfg : LDAPServerConfig) (request : BindRequest) : BindResponse :=
  if cfg.allowAnonymousBind || (!truthy cfg.bindDN && !truthy cfg.bindPassword) then
    { resultCode := successCode, matchedDN := "", diagnosticMessage := "Anonymous bind successful" }
  else
    match request.authentication with
    | .simple password =>
        let valid := eqOptStr request.name cfg.bindDN && eqOptStr password cfg.bindPassword
        { resultCode := if valid then successCode else invalidCredentialsCode
          matchedDN := if valid then request.name else ""
          diagnosticMessage := if valid then "Bind successful" else "Invalid credentials" }
    | .sasl _ =>
        { resultCode := authMethodNotSupportedCode, matchedDN := ""
          diagnosticMessage := "Only simple authentication supported" }

/-- The anonymous (empty DN, empty password) simple BindRequest. -/
def anonymousBindRequest : BindRequest :=
  { name := "", authentication := .simple "" }

/-! ### ID allocator (`src/services/id_allocator.ts`) -/

/-- FNV-1a 64-bit offset basis (`FNV_OFFSET`). -/
def fnvOffset : Nat := 0xcbf29ce484222325

/-- FNV-1a 64-bit prime (`FNV_PRIME`). -/
def fnvPrime : Nat := 0x100000001b3

/-- FNV-1a 64-bit over a list of byte/unit values, with wrap-around on the
64-bit multiplication (`BigInt.asUintN(64, hash * FNV_PRIME)`). -/
def fnv1a64 (units : List Nat) : Nat :=
  units.foldl (fun hash u => (Nat.xor hash u) * fnvPrime % 2 ^ 64) fnvOffset

/-- UTF-16 code units of a string as read by `charCodeAt` (the strings in
this development are BMP, where code units and code points coincide). -/
def codeUnits (s : String) : List Nat :=
  s.data.map Char.toNat

/-- Embedding of `IdAllocator.hashToInt`: FNV-1a 64 over the `charCodeAt`
units of the input, folded to 31 bits with `AND 0x7fffffff`. -/
def hashToInt (input : String) : Nat :=
  Nat.land (fnv1a64 (codeUnits input)) 0x7fffffff

/-- Constructor options of `IdAllocator` after defaulting.  `ceiling = 0`
models the JavaScript falsy `undefined`/`0` (`if (this.ceiling && …)`). -/
structure AllocConfig where
  salt : String
  retryLimit : Nat := 4
  floor : Nat := 10000
  ceiling : Nat := 0

/-- Internal state of an `IdAllocator` (the two `Map`s as association
lists, plus the sequential cursor and the metric counters). -/
structure AllocState where
  byKey : List (String × Nat)
  byId : List (Nat × String)
  nextSeq : Nat
  collisions : Nat
  fallbacks : Nat
deriving DecidableEq

/-- Fresh allocator state for a configuration (`sequentialStart` defaulted
to `floor + 1`). -/
def AllocState.init (cfg : AllocConfig) : AllocState :=
  { byKey := [], byId := [], nextSeq := cfg.floor + 1, collisions := 0, fallbacks := 0 }

/-- Lookup in the key → id map (`this.state.byKey.get`). -/
def lookupKey : List (String × Nat) → String → Option Nat
  | [], _ => none
  | (k, v) :: rest, key => if k = key then some v else lookupKey rest key

/-- Lookup in the id → key reverse map (`this.state.byId.get`). -/
def lookupId : List (Nat × String) → Nat → Option String
  | [], _ => none
  | (i, k) :: rest, id => if i = id then some k else lookupId rest id

/-- The string hashed at a given attempt: `${salt}:${attempt}:${key}`. -/
def attemptInput (salt : String) (attempt : Nat) (key : String) : String :=
  salt ++ ":" ++ toString attempt ++ ":" ++ key

/-- Outcome of the hash-attempt loop in `IdAllocator.allocate`. -/
inductive HashOutcome where
  | committed (id attempt : Nat)
  | uncommitted (id attempt : Nat)
  | exhausted
deriving DecidableEq

/-- The `while (attempt <= retryLimit)` loop of `IdAllocator.allocate`,
with `fuel = retryLimit + 1 - attempt` remaining iterations.  The second
component counts the collisions encountered (`this.state.collisions++`). -/
def hashSearch (cfg : AllocConfig) (byId : List (Nat × String)) (key : String) :
    Nat → Nat → HashOutcome × Nat
  | _, 0 => (.exhausted, 0)
  | attempt, fuel + 1 =>
    let hashId := hashToInt (attemptInput cfg.salt attempt key)
    if hashId ≤ cfg.floor then hashSearch cfg byId key (attempt + 1) fuel
    else if cfg.ceiling ≠ 0 ∧ cfg.ceiling < hashId then hashSearch cfg byId key (attempt + 1) fuel
    else
      match lookupId byId hashId with
      | none => (.committed hashId attempt, 0)
      | some currentKey =>
          if currentKey = key then (.uncommitted hashId attempt, 0)
          else
            let r := hashSearch cfg byId key (attempt + 1) fuel
            (r.1, r.2 + 1)

/-- Ids present in the reverse map (`this.state.byId.has`). -/
def takenIds (byId : List (Nat × String)) : List Nat :=
  byId.map Prod.fst

theorem le_foldr_max_of_mem {l : List Nat} {x : Nat} (h : x ∈ l) : x ≤ l.foldr max 0 := by
  induction l with
  | nil => cases h
  | cons a rest ih =>
      rcases List.mem_cons.mp h with rfl | hx
      · exact le_max_left _ _
      · exact le_trans (ih hx) (le_max_right _ _)

theorem exists_free_candidate (taken : List Nat) (c : Nat) : ∃ n, (c + n) ∉ taken := by
  refine ⟨taken.foldr max 0 + 1, fun hmem => ?_⟩
  have h1 := le_foldr_max_of_mem hmem
  omega

/-- First free candidate at or after the cursor — the value returned by the
skip loop in `IdAllocator.nextSequential` when it does not throw. -/
def leastFree (taken : List Nat) (c : Nat) : Nat :=
  c + Nat.find (exists_free_candidate taken c)

/-- Embedding of `IdAllocator.nextSequential`.  `none` models the thrown
`"ID allocator sequential ceiling exhausted"` error; on success it returns
the id and the advanced cursor. -/
def nextSequential (cfg : AllocConfig) (byId : List (Nat × String)) (c : Nat) :
    Option (Nat × Nat) :=
  let free := leastFree (takenIds byId) c
  if cfg.ceiling ≠ 0 ∧ cfg.ceiling < free then none else some (free, free + 1)

/-- Result record of `IdAllocator.allocate`. -/
structure AllocationResult where
  id : Nat
  hashed : Bool
  collisionCount : Nat
deriving DecidableEq

/-- Embedding of `IdAllocator.allocate` (src/services/id_allocator.ts:171-208).
`none` models the exception thrown by the sequential fallback when a
configured ceiling is exhausted. -/
def allocate (cfg : AllocConfig) (st : AllocState) (key : String) :
    Option (AllocationResult × AllocState) :=
  match lookupKey st.byKey key with
  | some existing =>
      some ({ id := existing, hashed := lookupId st.byId existing = some key,
              collisionCount := 0 }, st)
  | none =>
      match hashSearch cfg st.byId key 0 (cfg.retryLimit + 1) with
      | (.committed id attempt, colls) =>
          some ({ id := id, hashed := true, collisionCount := attempt },
                { st with byKey := (key, id) :: st.byKey, byId := (id, key) :: st.byId,
                          collisions := st.collisions + colls })
      | (.uncommitted id attempt, colls) =>
          some ({ id := id, hashed := true, collisionCount := attempt },
                { st with collisions := st.collisions + colls })
      | (.exhausted, colls) =>
          match nextSequential cfg st.byId st.nextSeq with
          | none => none
          | some (id, seq') =>
              some ({ id := id, hashed := false, collisionCount := cfg.retryLimit + 1 },
                    { st with byKey := (key, id) :: st.byKey, byId := (id, key) :: st.byId,
                              nextSeq := seq', collisions := st.collisions + colls,
                              fallbacks := st.fallbacks + 1 })

/-! ### Spec-side allocator description (for claim C2) -/

/-- Modelled from the spec: UTF-8 encoding of one code point, used by the
spec's phrase "over the UTF-8 bytes of the input" (§4.2 Hashing). -/
def utf8EncodeChar (c : Nat) : List Nat :=
  if c < 0x80 then [c]
  else if c < 0x800 then [0xC0 + c / 64, 0x80 + c % 64]
  else if c < 0x10000 then [0xE0 + c / 4096, 0x80 + c / 64 % 64, 0x80 + c % 64]
  else [0xF0 + c / 262144, 0x80 + c / 4096 % 64, 0x80 + c / 64 % 64, 0x80 + c % 64]

/-- Modelled from the spec: the UTF-8 bytes of a string. -/
def utf8Bytes (s : String) : List Nat :=
  (s.data.map (fun c => utf8EncodeChar c.toNat)).flatten

/-- Modelled from the spec: the id derived at a given attempt by hashing the
UTF-8 bytes of `salt ++ ":" ++ attempt ++ ":" ++ key` and folding with
`AND 0x7FFFFFFF`. -/
def specHashId (salt : String) (attempt : Nat) (key : String) : Nat :=
  Nat.land (fnv1a64 (utf8Bytes (attemptInput salt attempt key))) 0x7fffffff

/-- Modelled from the spec: the attempt loop of §4.2 — try attempts in
order, accept the first id that is above the floor, within the ceiling
(when one is set) and free, returning it with its attempt index. -/
def specFirstValid (cfg : AllocConfig) (free : Nat → Bool) (h : Nat → Nat) :
    Nat → Nat → Option (Nat × Nat)
  | _, 0 => none
  | attempt, fuel + 1 =>
    let id := h attempt
    if cfg.floor < id ∧ (cfg.ceiling = 0 ∨ id ≤ cfg.ceiling) ∧ free id then some (id, attempt)
    else specFirstValid cfg free h (attempt + 1) fuel

/-- Freeness in the reverse map, as a Boolean predicate. -/
def freeIn (byId : List (Nat × String)) (id : Nat) : Bool :=
  lookupId byId id = none

/-- Projection of an allocation outcome to the fields named by the claim. -/
def allocProj (p : AllocationResult × AllocState) : Nat × Bool × Nat :=
  (p.1.id, p.1.hashed, p.1.collisionCount)

/-- Well-formedness of an allocator state: the forward and reverse maps are
inverse to one another, every committed id is above the configured floor,
and the sequential cursor is above the floor (all true of `AllocState.init`
and preserved by `allocate`). -/
structure AllocWF (cfg : AllocConfig) (st : AllocState) : Prop where
  consistKI : ∀ k i, lookupKey st.byKey k = some i → lookupId st.byId i = some k
  consistIK : ∀ i k, lookupId st.byId i = some k → lookupKey st.byKey k = some i
  aboveFloor : ∀ i k, lookupId st.byId i = some k → cfg.floor < i
  nextSeqAbove : cfg.floor < st.nextSeq

/-! ### Data model (`src/models`) -/

/-- Domain user (`src/models/user.ts`). -/
structure User where
  id : String
  username : String
  displayName : String
  email : Option String
  active : Bool
  posixUid : Nat
  primaryGroupId : String
  memberGroupIds : List String
  createdAt : String
  updatedAt : String
deriving DecidableEq

/-- Domain group (`src/models/group.ts`). -/
structure Group where
  id : String
  name : String
  description : Option String
  memberUserIds : List String
  memberGroupIds : List String
  posixGid : Nat
  isSynthetic : Bool
  truncated : Bool
deriving DecidableEq

/-- Immutable snapshot (`src/models/snapshot.ts`). -/
structure Snapshot where
  users : List User
  groups : List Group
  generatedAt : String
  sequence : Nat
  featureFlags : List String
deriving DecidableEq

/-- Raw user from an IdP adaptor (`src/adaptors/types.ts`). -/
structure RawUser where
  id : String
  username : String
  email : Option String
  enabled : Bool
  displayName : Option String
deriving DecidableEq

/-- Raw group from an IdP adaptor (`src/adaptors/types.ts`). -/
structure RawGroup where
  id : String
  name : String
  description : Option String
  members : Option (List String)
deriving DecidableEq

/-! ### Snapshot builder (`src/services/snapshot_builder.ts`) -/

/-- Constructor options of `SnapshotBuilder` (the two allocators live
outside the builder in the source; here their configurations are carried
and their states are threaded explicitly). -/
structure BuilderConfig where
  uidCfg : AllocConfig
  gidCfg : AllocConfig
  enabledFeatures : List String
  maxGroupMembers : Nat := 5000

/-- JavaScript `a || b` on an optional string (`undefined` and `""` are
falsy). -/
def jsOrStr (a : Option String) (b : String) : String :=
  match a with
  | some s => if s = "" then b else s
  | none => b

/-- Duplicate removal keeping first occurrences — iteration order of a
JavaScript `Set` built from a list (`new Set(options.enabledFeatures)`,
spread in `featureFlags: [...this.enabledFeatures]`). -/
def dedupFirst : List String → List String
  | [] => []
  | x :: rest => x :: (dedupFirst rest).filter (fun y => y ≠ x)

/-- Embedding of `SnapshotBuilder.getSyntheticPrimaryGroupId`. -/
def getSyntheticPrimaryGroupId (bc : BuilderConfig) (userId : String) : String :=
  if bc.enabledFeatures.contains "synthetic_primary_group" then "synthetic:" ++ userId
  else "users"

/-- User construction loop of `SnapshotBuilder.buildSnapshot` (the
`filter(enabled).map(...)` over raw users, allocating a POSIX uid for each
in order); the filtering is done by the caller.  `none` propagates an
allocator exception. -/
def allocUsers (bc : BuilderConfig) (now : String) :
    List RawUser → AllocState → Option (List User × AllocState)
  | [], st => some ([], st)
  | u :: rest, st =>
      match allocate bc.uidCfg st ("user:" ++ u.id) with
      | none => none
      | some (r, st') =>
          match allocUsers bc now rest st' with
          | none => none
          | some (us, st'') =>
              some ({ id := u.id, username := u.username,
                      displayName := jsOrStr u.displayName u.username,
                      email := u.email, active := u.enabled, posixUid := r.id,
                      primaryGroupId := getSyntheticPrimaryGroupId bc u.id,
                      memberGroupIds := [], createdAt := now, updatedAt := now } :: us, st'')

/-- Update the last user matching a predicate.  The source builds
`userIdMap = new Map(users.map(u => [u.id, u]))`, in which a later user
with the same id shadows an earlier one, and then mutates the mapped user
object in place; updating the last match models exactly that. -/
def updateLast (p : User → Bool) (f : User → User) : List User → List User
  | [] => []
  | u :: rest =>
      if rest.any p then u :: updateLast p f rest
      else if p u then f u :: rest
      else u :: rest

/-- Embedding of the `finalMemberIds.forEach` body in
`SnapshotBuilder.processGroups`: push the group id onto the matching
user's `memberGroupIds` (no-op when the user id is unknown). -/
def pushGroupId (gid : String) (uid : String) (users : List User) : List User :=
  updateLast (fun u => u.id = uid)
    (fun u => { u with memberGroupIds := u.memberGroupIds ++ [gid] }) users

/-- The `truncated` flag of `SnapshotBuilder.processGroups`:
`memberUserIds.length > this.maxGroupMembers` where
`memberUserIds = group.members || []`. -/
def groupTruncated (bc : BuilderConfig) (g : RawGroup) : Bool :=
  (g.members.getD []).length > bc.maxGroupMembers

/-- The `finalMemberIds` of `SnapshotBuilder.processGroups`:
`truncated ? memberUserIds.slice(0, maxGroupMembers) : memberUserIds`. -/
def groupFinalMembers (bc : BuilderConfig) (g : RawGroup) : List String :=
  let ms := g.members.getD []
  if ms.length > bc.maxGroupMembers then ms.take bc.maxGroupMembers else ms

/-- Embedding of `SnapshotBuilder.processGroups`
(src/services/snapshot_builder.ts:79-109), threading the gid allocator
state and the user-list mutations. -/
def processGroups (bc : BuilderConfig) :
    List RawGroup → List User → AllocState → Option (List Group × List User × AllocState)
  | [], users, st => some ([], users, st)
  | g :: rest, users, st =>
      match allocate bc.gidCfg st ("group:" ++ g.id) with
      | none => none
      | some (r, st') =>
          match processGroups bc rest
              ((groupFinalMembers bc g).foldl (fun us uid => pushGroupId g.id uid us) users)
              st' with
          | none => none
          | some (gs, users'', st'') =>
              some ({ id := g.id, name := g.name, description := g.description,
                      memberUserIds := groupFinalMembers bc g, memberGroupIds := [],
                      posixGid := r.id, isSynthetic := false,
                      truncated := groupTruncated bc g } :: gs,
                    users'', st'')

/-- Embedding of `SnapshotBuilder.createSyntheticPrimaryGroups`. -/
def createSyntheticPrimaryGroups (bc : BuilderConfig) :
    List User → AllocState → Option (List Group × AllocState)
  | [], st => some ([], st)
  | u :: rest, st =>
      match allocate bc.gidCfg st ("synthetic:" ++ u.id) with
      | none => none
      | some (r, st') =>
          match createSyntheticPrimaryGroups bc rest st' with
          | none => none
          | some (gs, st'') =>
              some ({ id := "synthetic:" ++ u.id, name := u.username ++ "-primary",
                      description := some ("Primary group for " ++ u.username),
                      memberUserIds := [u.id], memberGroupIds := [], posixGid := r.id,
                      isSynthetic := true, truncated := false } :: gs, st'')

/-- Embedding of `SnapshotBuilder.buildSnapshot`
(src/services/snapshot_builder.ts:30-69).  The adaptor fetch is replaced by
its result (`rawUsers`, `rawGroups`); `seq` is the builder's
`sequenceCounter` before the call and `now` the ISO clock reading
(`new Date().toISOString()`).  Returns the snapshot, the two advanced
allocator states and the advanced sequence counter. -/
def buildSnapshot (bc : BuilderConfig) (rawUsers : List RawUser) (rawGroups : List RawGroup)
    (uidSt gidSt : AllocState) (seq : Nat) (now : String) :
    Option (Snapshot × AllocState × AllocState × Nat) :=
  match allocUsers bc now (rawUsers.filter (fun u => u.enabled)) uidSt with
  | none => none
  | some (users, uidSt') =>
      match processGroups bc rawGroups users gidSt with
      | none => none
      | some (groups, users', gidSt') =>
          match (if bc.enabledFeatures.contains "synthetic_primary_group" then
                    createSyntheticPrimaryGroups bc users' gidSt'
                  else some ([], gidSt')) with
          | none => none
          | some (synth, gidSt'') =>
              some ({ users := users', groups := groups ++ synth, generatedAt := now,
                      sequence := seq + 1, featureFlags := dedupFirst bc.enabledFeatures },
                    uidSt', gidSt'', seq + 1)

/-- Projection of a build outcome onto everything except the sequence
counter and the snapshot's `sequence` field. -/
def buildProj (p : Snapshot × AllocState × AllocState × Nat) :
    List User × List Group × String × List String × AllocState × AllocState :=
  (p.1.users, p.1.groups, p.1.generatedAt, p.1.featureFlags, p.2.1, p.2.2.1)

/-! ### Concrete builder inputs used by witnesses and counterexamples -/

/-- Builder configuration with default limits, empty feature set, and the
salts `"u"`/`"g"` for the uid/gid allocators. -/
def smallBC : BuilderConfig :=
  { uidCfg := { salt := "u" }, gidCfg := { salt := "g" }, enabledFeatures := [] }

/-- A single enabled raw user. -/
def c3Raw : RawUser :=
  { id := "u1", username := "alice", email := none, enabled := true, displayName := none }

/-- The domain user built from `c3Raw` at clock reading `"t"`
(`FNV1a64("u:0:user:u1") AND 0x7fffffff = 1109011185`). -/
def c3User : User :=
  { id := "u1", username := "alice", displayName := "alice", email := none, active := true,
    posixUid := 1109011185, primaryGroupId := "users", memberGroupIds := [],
    createdAt := "t", updatedAt := "t" }

/-- The uid-allocator state after allocating `user:u1`. -/
def c3USt : AllocState :=
  { byKey := [("user:u1", 1109011185)], byId := [(1109011185, "user:u1")],
    nextSeq := 10001, collisions := 0, fallbacks := 0 }

/-- The snapshot built from `c3Raw` with a given sequence number. -/
def c3Snap (n : Nat) : Snapshot :=
  { users := [c3User], groups := [], generatedAt := "t", sequence := n, featureFlags := [] }

/-- A raw group with 5001 candidate members. -/
def c8Raw : RawGroup :=
  { id := "g1", name := "big", description := none,
    members := some (List.replicate 5001 "m") }

/-- The clipped group built from `c8Raw`
(`FNV1a64("g:0:group:g1") AND 0x7fffffff = 1981113325`). -/
def c8Group : Group :=
  { id := "g1", name := "big", description := none,
    memberUserIds := List.replicate 5000 "m", memberGroupIds := [],
    posixGid := 1981113325, isSynthetic := false, truncated := true }

/-- The gid-allocator state after allocating `group:g1`. -/
def c8GSt : AllocState :=
  { byKey := [("group:g1", 1981113325)], byId := [(1981113325, "group:g1")],
    nextSeq := 10001, collisions := 0, fallbacks := 0 }

/-- The snapshot built from `c8Raw` alone. -/
def c8Snap : Snapshot :=
  { users := [], groups := [c8Group], generatedAt := "t", sequence := 1, featureFlags := [] }

/-- Two enabled raw users with distinct ids. -/
def c9Raw1 : RawUser :=
  { id := "u1", username := "alice", email := none, enabled := true, displayName := none }

/-- Second raw user for the uniqueness witness. -/
def c9Raw2 : RawUser :=
  { id := "u2", username := "bob", email := none, enabled := true, displayName := none }

/-- Domain user for `c9Raw2`
(`FNV1a64("u:0:user:u2") AND 0x7fffffff = 1109009880`). -/
def c9User2 : User :=
  { id := "u2", username := "bob", displayName := "bob", email := none, active := true,
    posixUid := 1109009880, primaryGroupId := "users", memberGroupIds := [],
    createdAt := "t", updatedAt := "t" }

/-- Uid-allocator state after allocating both users. -/
def c9USt : AllocState :=
  { byKey := [("user:u2", 1109009880), ("user:u1", 1109011185)],
    byId := [(1109009880, "user:u2"), (1109011185, "user:u1")],
    nextSeq := 10001, collisions := 0, fallbacks := 0 }

/-- Snapshot with the two users of the uniqueness witness. -/
def c9Snap : Snapshot :=
  { users := [c3User, c9User2], groups := [], generatedAt := "t", sequence := 1,
    featureFlags := [] }

/-! ### Refresh scheduler (`src/services/refresh_scheduler.ts`) -/

/-- Scheduler options after defaulting. -/
structure SchedulerConfig where
  refreshIntervalMs : Nat
  maxBackoffMs : Nat := 300000
  backoffMultiplier : Nat := 2
  maxRetries : Nat := 10

/-- Mutable fields of `RefreshScheduler` touched by the refresh path. -/
structure SchedulerState where
  currentSnapshot : Option Snapshot
  isRunning : Bool
  consecutiveFailures : Nat
  currentBackoffMs : Nat
deriving DecidableEq

/-- Embedding of `RefreshScheduler.performRefresh`
(src/services/refresh_scheduler.ts:107-171): `buildResult` is `some s`
when `buildSnapshot` returned snapshot `s` and `none` when the adaptor
fetch or the build threw. -/
def performRefresh (cfg : SchedulerConfig) (st : SchedulerState)
    (buildResult : Option Snapshot) : SchedulerState :=
  match buildResult with
  | some snapshot =>
      { st with consecutiveFailures := 0, currentBackoffMs := 0,
                currentSnapshot := some snapshot }
  | none =>
      let failures := st.consecutiveFailures + 1
      let backoff :=
        if failures = 1 then min cfg.refreshIntervalMs cfg.maxBackoffMs
        else min (st.currentBackoffMs * cfg.backoffMultiplier) cfg.maxBackoffMs
      { st with consecutiveFailures := failures, currentBackoffMs := backoff }

/-- Embedding of `RefreshScheduler.scheduleNext`
(src/services/refresh_scheduler.ts:173-196): stops the scheduler after
`maxRetries` consecutive failures; the timer arming itself carries no
state beyond this. -/
def scheduleNext (cfg : SchedulerConfig) (st : SchedulerState) : SchedulerState :=
  if !st.isRunning then st
  else if st.consecutiveFailures ≥ cfg.maxRetries then { st with isRunning := false }
  else st

/-- One failed refresh iteration: `performRefresh` with a thrown build,
followed by `scheduleNext`. -/
def failedRefreshCycle (cfg : SchedulerConfig) (st : SchedulerState) : SchedulerState :=
  scheduleNext cfg (performRefresh cfg st none)

/-! ### LDAP filters and the search path (`src/services/ldap_server.ts`) -/

/-- One element of a decoded substrings filter (`SubstringFilter` in
`src/protocol/ldap.ts`): optional initial/any/final parts. -/
structure SubstringComponent where
  initial : Option String := none
  any : Option (List String) := none
  final : Option String := none
deriving DecidableEq

/-- Decoded LDAP filter tree (`Filter` in `src/protocol/ldap.ts`). -/
inductive Filter where
  | and (filters : List Filter)
  | or (filters : List Filter)
  | not (filter : Filter)
  | equalityMatch (attributeDesc assertionValue : String)
  | substrings (type_ : String) (substrings : List SubstringComponent)
  | present (attributeDesc : String)
  | greaterOrEqual (attributeDesc assertionValue : String)
  | lessOrEqual (attributeDesc assertionValue : String)
  | approxMatch (attributeDesc assertionValue : String)

/-- Decoded SearchRequest fields (`SearchRequest` in `src/protocol/ldap.ts`). -/
structure SearchRequest where
  baseObject : String
  scope : Nat
  derefAliases : Nat
  sizeLimit : Nat
  timeLimit : Nat
  typesOnly : Bool
  filter : Filter
  attributes : List String

/-- A SearchResultEntry: DN plus attribute list (each attribute a name with
its value list). -/
structure SearchResultEntry where
  objectName : String
  attributes : List (String × List String)
deriving DecidableEq

/-- Embedding of `LDAPServer.normalizeStringValue`
(src/services/ldap_server.ts:810-846): strip suspected ASN.1 TLV framing
bytes, keep printable ASCII, fall back to word characters, trim. -/
def normalizeStringValue (raw : String) : String :=
  if raw = "" then ""
  else
    let cs := raw.data
    let firstByte := (cs.headD ' ').toNat
    let cleaned : List Char :=
      if (firstByte = 4 ∨ firstByte = 12) ∧ cs.length > 2 then cs.drop 2
      else if firstByte ≤ 0x1f ∧ cs.length > 2 then
        let lengthByte := ((cs.drop 1).headD ' ').toNat
        if 0 < lengthByte ∧ lengthByte ≤ cs.length - 2 then cs.drop 2 else cs
      else cs
    let printable := cleaned.filter (fun c => 32 ≤ c.toNat ∧ c.toNat ≤ 126)
    let cleaned2 : List Char :=
      if printable.length = 0 ∨ printable.any (fun c => c.toNat < 32) then
        cs.filter (fun c => c.isAlphanum ∨ c = '_')
      else printable
    if jsTrim ⟨cleaned2⟩ ≠ "" then jsTrim ⟨cleaned2⟩ else jsTrim raw

/-- The `normalizeString` helper of `LDAPServer.normalizeSearchRequest`
(src/services/ldap_server.ts:291-299): strip an `0x04`-tagged TLV, then
trim. -/
def normalizeRequestString (raw : String) : String :=
  if raw = "" then ""
  else if (raw.data.headD ' ').toNat = 4 ∧ raw.data.length > 2 then
    let cleaned := jsTrim ⟨raw.data.drop 2⟩
    if cleaned ≠ "" then cleaned else jsTrim raw
  else jsTrim raw

/-- Normalization of one substring component, mirroring
`s.initial ? normalizeString(s.initial) : undefined` (a falsy — absent or
empty — part stays absent; an `any` array is mapped even when empty). -/
def normalizeSubstringComponent (s : SubstringComponent) : SubstringComponent :=
  { initial :=
      match s.initial with
      | some i => if i = "" then none else some (normalizeRequestString i)
      | none => none
    any :=
      match s.any with
      | some l => some (l.map normalizeRequestString)
      | none => none
    final :=
      match s.final with
      | some f => if f = "" then none else some (normalizeRequestString f)
      | none => none }

mutual

/-- Embedding of `LDAPServer.normalizeFilter`
(src/services/ldap_server.ts:312-372). -/
def normalizeFilter : Filter → Filter
  | .and fs => .and (normalizeFilterList fs)
  | .or fs => .or (normalizeFilterList fs)
  | .not f => .not (normalizeFilter f)
  | .equalityMatch a v => .equalityMatch (normalizeRequestString a) (normalizeRequestString v)
  | .substrings t subs =>
      .substrings (normalizeRequestString t) (subs.map normalizeSubstringComponent)
  | .present a => .present (normalizeRequestString a)
  | .greaterOrEqual a v => .greaterOrEqual (normalizeRequestString a) (normalizeRequestString v)
  | .lessOrEqual a v => .lessOrEqual (normalizeRequestString a) (normalizeRequestString v)
  | .approxMatch a v => .approxMatch (normalizeRequestString a) (normalizeRequestString v)

/-- Pointwise `normalizeFilter` over a filter list (`filters.map(...)`). -/
def normalizeFilterList : List Filter → List Filter
  | [] => []
  | f :: rest => normalizeFilter f :: normalizeFilterList rest

end

/-- Embedding of `LDAPServer.normalizeSearchRequest`
(src/services/ldap_server.ts:290-310). -/
def normalizeSearchRequest (request : SearchRequest) : SearchRequest :=
  { request with
    baseObject := normalizeRequestString request.baseObject
    attributes := (request.attributes.map normalizeRequestString).filter (fun a => a ≠ "")
    filter := normalizeFilter request.filter }

/-- Substring containment on character lists (JavaScript
`String.prototype.includes`). -/
def containsSub : List Char → List Char → Bool
  | needle, [] => needle.isEmpty
  | needle, c :: rest => needle.isPrefixOf (c :: rest) || containsSub needle rest

/-- JavaScript `String.prototype.startsWith`, on the characters. -/
def jsStartsWith (s part : String) : Bool :=
  part.data.isPrefixOf s.data

/-- JavaScript `String.prototype.endsWith`, on the characters. -/
def jsEndsWith (s part : String) : Bool :=
  part.data.reverse.isPrefixOf s.data.reverse

/-- JavaScript `split(",")`, on the characters. -/
def splitOnCommaAux : List Char → List Char → List String
  | [], acc => [⟨acc.reverse⟩]
  | c :: rest, acc =>
      if c = ',' then (⟨acc.reverse⟩ : String) :: splitOnCommaAux rest []
      else splitOnCommaAux rest (c :: acc)

/-- String-level wrapper of `splitOnCommaAux`. -/
def splitOnComma (s : String) : List String :=
  splitOnCommaAux s.data []

/-- The `getAttrValues` closure of `LDAPServer.matchesFilter`: first
attribute whose lower-cased name matches the normalized, lower-cased
requested name. -/
def getAttrValues (attrs : List (String × List String)) (name : String) : List String :=
  let normalizedName := jsLower (normalizeStringValue name)
  match attrs.find? (fun kv => jsLower kv.1 == normalizedName) with
  | some kv => kv.2
  | none => []

mutual

/-- Embedding of `LDAPServer.matchesFilter`
(src/services/ldap_server.ts:675-764).  String order on `greaterOrEqual` /
`lessOrEqual` is the code-point lexicographic order of JavaScript string
comparison. -/
def matchesFilter (attrs : List (String × List String)) : Filter → Bool
  | .and fs => matchesFilterAll attrs fs
  | .or fs => matchesFilterAny attrs fs
  | .not f => !matchesFilter attrs f
  | .equalityMatch a v =>
      let normalizedAttr := if a ≠ "" then normalizeStringValue a else ""
      let normalizedValue := if v ≠ "" then normalizeStringValue v else ""
      let values := getAttrValues attrs normalizedAttr
      values.any fun x => jsLower (normalizeStringValue x) == jsLower normalizedValue
  | .present a =>
      let normalizedAttr := if a ≠ "" then normalizeStringValue a else ""
      let values := getAttrValues attrs normalizedAttr
      decide (values.length > 0) && values.any (fun v => v ≠ "")
  | .substrings t subs =>
      let values := getAttrValues attrs t
      let combined := jsLower (String.intercalate " " values)
      subs.all fun s =>
        (match s.initial with
         | some i => jsStartsWith combined (jsLower i)
         | none => true) &&
        (match s.final with
         | some f => jsEndsWith combined (jsLower f)
         | none => true) &&
        (match s.any with
         | some l => l.all fun a => containsSub (jsLower a).data combined.data
         | none => true)
  | .greaterOrEqual a v =>
      (getAttrValues attrs a).any fun x => decide (v ≤ x)
  | .lessOrEqual a v =>
      (getAttrValues attrs a).any fun x => decide (x ≤ v)
  | .approxMatch a v =>
      (getAttrValues attrs a).any fun x => jsLower x == jsLower v

/-- Conjunction over a filter list (`filters.every(...)`). -/
def matchesFilterAll (attrs : List (String × List String)) : List Filter → Bool
  | [] => true
  | f :: rest => matchesFilter attrs f && matchesFilterAll attrs rest

/-- Disjunction over a filter list (`filters.some(...)`). -/
def matchesFilterAny (attrs : List (String × List String)) : List Filter → Bool
  | [] => false
  | f :: rest => matchesFilter attrs f || matchesFilterAny attrs rest

end

/-- Embedding of `LDAPServer.buildAttributeList`
(src/services/ldap_server.ts:786-808). -/
def buildAttributeList (attrs : List (String × List String)) (requestedAttrs : List String)
    (typesOnly : Bool) : List (String × List String) :=
  let wanted : Option (List String) :=
    if requestedAttrs.length > 0 then some (requestedAttrs.map jsLower) else none
  attrs.filterMap fun kv =>
    if kv.1 == "dn" then none
    else
      let lowerName := jsLower kv.1
      let skip : Bool :=
        match wanted with
        | some w => !w.contains lowerName
        | none => false
      if skip then none
      else
        let stringValues := kv.2.filter (fun v => v ≠ "")
        if stringValues.length > 0 then some (kv.1, if typesOnly then [] else stringValues)
        else none

/-- Maximal non-whitespace runs of a string: the composite
`.trim().split(/\s+/).filter(Boolean)` used on display names. -/
def wordsAux : List Char → List Char → List (List Char)
  | [], acc => if acc.isEmpty then [] else [acc.reverse]
  | c :: rest, acc =>
      if isWs c then
        if acc.isEmpty then wordsAux rest [] else acc.reverse :: wordsAux rest []
      else wordsAux rest (c :: acc)

/-- String-level wrapper of `wordsAux`. -/
def jsWords (s : String) : List String :=
  (wordsAux s.data []).map (fun l => ⟨l⟩)

/-- Embedding of `LDAPServer.buildUserAttributes`
(src/services/ldap_server.ts:512-548); attribute entries in the object's
insertion order, scalar values as singleton lists. -/
def buildUserAttributes (baseDN : String) (groups : List Group) (user : User) :
    List (String × List String) :=
  let userDNBase := "ou=users," ++ baseDN
  let groupDNBase := "ou=groups," ++ baseDN
  let primaryGroup := groups.find? (fun g => g.id == user.primaryGroupId)
  let gidNumber :=
    match primaryGroup with
    | some g => toString g.posixGid
    | none => "10000"
  let parts := jsWords (jsOrStr (some user.displayName) (jsOrStr (some user.username) ""))
  let givenName :=
    match parts with
    | p :: _ => p
    | [] => if user.username ≠ "" then user.username else "unknown"
  let sn := if parts.length > 1 then String.intercalate " " (parts.drop 1) else givenName
  let dn := "uid=" ++ user.username ++ "," ++ userDNBase
  let memberOfDNs := user.memberGroupIds.filterMap fun gid =>
    (groups.find? (fun g => g.id == gid)).map fun g => "cn=" ++ g.name ++ "," ++ groupDNBase
  [("dn", [dn]),
   ("objectClass", ["top", "person", "organizationalPerson", "inetOrgPerson", "posixAccount"]),
   ("uid", [user.username]),
   ("cn", [jsOrStr (some user.displayName) user.username]),
   ("sn", [sn]),
   ("givenName", [givenName]),
   ("displayName", [jsOrStr (some user.displayName) user.username]),
   ("mail", [user.email.getD ""]),
   ("userPrincipalName", [user.email.getD ""]),
   ("uidNumber", [toString user.posixUid]),
   ("gidNumber", [gidNumber]),
   ("homeDirectory", ["/home/" ++ user.username]),
   ("loginShell", ["/bin/bash"]),
   ("memberOf", memberOfDNs),
   ("userAccountControl", ["512"]),
   ("description", ["User account for " ++ jsOrStr (some user.displayName) user.username])]

/-- Embedding of `LDAPServer.buildGroupAttributes`
(src/services/ldap_server.ts:550-570). -/
def buildGroupAttributes (baseDN : String) (users : List User) (group : Group) :
    List (String × List String) :=
  let groupDNBase := "ou=groups," ++ baseDN
  let dn := "cn=" ++ group.name ++ "," ++ groupDNBase
  let isMember := fun (u : User) =>
    u.memberGroupIds.contains group.id || u.primaryGroupId == group.id
  let memberDNs := (users.filter isMember).map fun u =>
    "uid=" ++ u.username ++ ",ou=users," ++ baseDN
  [("dn", [dn]),
   ("objectClass", ["top", "group", "posixGroup"]),
   ("cn", [group.name]),
   ("gidNumber", [toString group.posixGid]),
   ("description", [jsOrStr group.description ("Group " ++ group.name)]),
   ("member", memberDNs),
   ("memberUid", (users.filter isMember).map (fun u => u.username))]

/-- Embedding of `LDAPServer.createRootDSEEntry`
(src/services/ldap_server.ts:572-591). -/
def createRootDSEEntry (baseDN : String) : SearchResultEntry :=
  { objectName := ""
    attributes :=
      [("objectClass", ["top", "rootDSE"]),
       ("namingContexts", [baseDN]),
       ("supportedLDAPVersion", ["3"]),
       ("supportedControl", ["1.2.840.113556.1.4.319"]),
       ("supportedExtension", []),
       ("vendorName", ["LDAPtoID"]),
       ("vendorVersion", ["1.0.0"])] }

/-- DN normalization used throughout the search path: lower-case and drop
whitespace (`dn.toLowerCase().replace(/\s+/g, "")`). -/
def normalizeDN (dn : String) : String :=
  stripWs (jsLower dn)

/-- Embedding of `LDAPServer.isInSearchScope`
(src/services/ldap_server.ts:638-673). -/
def isInSearchScope (entryDN baseObject : String) (scope : Nat) : Bool :=
  let normalizedEntry := normalizeDN entryDN
  let normalizedBase := normalizeDN baseObject
  if scope = 0 then normalizedEntry == normalizedBase
  else if scope = 1 then
    if normalizedEntry == normalizedBase then false
    else
      let parentDN := String.intercalate "," ((splitOnComma normalizedEntry).drop 1)
      parentDN == normalizedBase
  else if scope = 2 then
    normalizedEntry == normalizedBase || jsEndsWith normalizedEntry ("," ++ normalizedBase)
  else false

/-- The `dn` property of an attribute record (`attrs.dn as string`). -/
def attrsDn (attrs : List (String × List String)) : String :=
  match attrs.find? (fun kv => kv.1 == "dn") with
  | some kv => kv.2.headD ""
  | none => ""

/-- Push an optional element onto an accumulator (`entries.push(entry)`
guarded by the surrounding `if`). -/
def pushOpt {β : Type} (acc : List β) : Option β → List β
  | some e => acc ++ [e]
  | none => acc

/-- One iteration of the user loop of `LDAPServer.executeSearch`: the entry
pushed for a user, if both the scope and the filter accept it. -/
def userSearchEntry (baseDN : String) (groups : List Group) (request : SearchRequest)
    (user : User) : Option SearchResultEntry :=
  let userAttrs := buildUserAttributes baseDN groups user
  let userDN := attrsDn userAttrs
  if isInSearchScope userDN request.baseObject request.scope
      && matchesFilter userAttrs request.filter then
    some { objectName := userDN
           attributes := buildAttributeList userAttrs request.attributes request.typesOnly }
  else none

/-- One iteration of the group loop of `LDAPServer.executeSearch`. -/
def groupSearchEntry (baseDN : String) (users : List User) (request : SearchRequest)
    (group : Group) : Option SearchResultEntry :=
  let groupAttrs := buildGroupAttributes baseDN users group
  let groupDN := attrsDn groupAttrs
  if isInSearchScope groupDN request.baseObject request.scope
      && matchesFilter groupAttrs request.filter then
    some { objectName := groupDN
           attributes := buildAttributeList groupAttrs request.attributes request.typesOnly }
  else none

/-- Embedding of `LDAPServer.createOUEntries`
(src/services/ldap_server.ts:593-636): the users OU first, then the groups
OU, each included when scope and filter accept it. -/
def createOUEntries (baseDN : String) (request : SearchRequest) : List SearchResultEntry :=
  let usersOU : List (String × List String) :=
    [("dn", ["ou=users," ++ baseDN]),
     ("objectClass", ["top", "organizationalUnit"]),
     ("ou", ["users"]),
     ("description", ["Users organizational unit"])]
  let groupsOU : List (String × List String) :=
    [("dn", ["ou=groups," ++ baseDN]),
     ("objectClass", ["top", "organizationalUnit"]),
     ("ou", ["groups"]),
     ("description", ["Groups organizational unit"])]
  (if isInSearchScope ("ou=users," ++ baseDN) request.baseObject request.scope
      && matchesFilter usersOU request.filter then
    [{ objectName := "ou=users," ++ baseDN
       attributes := buildAttributeList usersOU request.attributes request.typesOnly }]
  else []) ++
  (if isInSearchScope ("ou=groups," ++ baseDN) request.baseObject request.scope
      && matchesFilter groupsOU request.filter then
    [{ objectName := "ou=groups," ++ baseDN
       attributes := buildAttributeList groupsOU request.attributes request.typesOnly }]
  else [])

/-- Embedding of `LDAPServer.executeSearch`
(src/services/ldap_server.ts:411-510): RootDSE special case for the empty
base at base scope; otherwise one pass pushing matching users, then one
pushing matching groups, then the OU entries appended when the scope is
not base. -/
def executeSearch (baseDN : String) (users : List User) (groups : List Group)
    (request : SearchRequest) : List SearchResultEntry :=
  if request.baseObject = "" ∧ request.scope = 0 then
    let rootEntry := createRootDSEEntry baseDN
    if matchesFilter rootEntry.attributes request.filter then [rootEntry] else []
  else
    let entriesAfterUsers := users.foldl (fun acc user =>
      pushOpt acc (userSearchEntry baseDN groups request user)) []
    let entriesAfterGroups := groups.foldl (fun acc group =>
      pushOpt acc (groupSearchEntry baseDN users request group)) entriesAfterUsers
    entriesAfterGroups ++ (if request.scope ≠ 0 then createOUEntries baseDN request else [])

/-- Embedding of `LDAPServer.isBaseObjectInScope`
(src/services/ldap_server.ts:388-409). -/
def isBaseObjectInScope (baseDN : String) (baseObject : String) : Bool :=
  if baseObject = "" then true
  else
    normalizeDN baseObject == normalizeDN baseDN
      || jsEndsWith (normalizeDN baseObject) ("," ++ normalizeDN baseDN)

/-- Embedding of `LDAPServer.applyLimits`
(src/services/ldap_server.ts:856-863). -/
def applyLimits (serverSizeLimit : Nat) (entries : List SearchResultEntry)
    (clientSizeLimit : Nat) : List SearchResultEntry :=
  let effectiveLimit :=
    min serverSizeLimit (if clientSizeLimit > 0 then clientSizeLimit else serverSizeLimit)
  entries.take effectiveLimit

/-- Entries streamed for a search plus the result code of the terminating
SearchResultDone. -/
structure SearchOutcome where
  entries : List SearchResultEntry
  doneCode : Nat
deriving DecidableEq

/-- Embedding of `LDAPServer.handleSearch`
(src/services/ldap_server.ts:231-288): `unavailable` without a snapshot;
empty success outside the served base; otherwise the limited entries and a
Done whose code is `sizeLimitExceeded` exactly when the pre-limit entry
count reaches the server-side size limit.  (The catch-all
`operationsError` path is unreachable in this pure model.) -/
def handleSearch (cfg : LDAPServerConfig) (snapshot : Option Snapshot)
    (request : SearchRequest) : SearchOutcome :=
  match snapshot with
  | none => { entries := [], doneCode := unavailableCode }
  | some snap =>
      let normalizedRequest := normalizeSearchRequest request
      if !isBaseObjectInScope cfg.baseDN normalizedRequest.baseObject then
        { entries := [], doneCode := successCode }
      else
        let entries := executeSearch cfg.baseDN snap.users snap.groups normalizedRequest
        let limitedEntries := applyLimits cfg.sizeLimit entries normalizedRequest.sizeLimit
        { entries := limitedEntries
          doneCode :=
            if entries.length ≥ cfg.sizeLimit then sizeLimitExceededCode else successCode }

/-! ### Filter decoding (`src/protocol/ldap.ts`, `LDAPCodec.parseFilter`) -/

/-- Abstraction of an asn1js block as seen by `parseFilter`: its tag
number, whether it is constructed, the text `decodeString` yields for it,
and its child blocks. -/
inductive RawBlock where
  | node (tag : Nat) (constructed : Bool) (text : String) (children : List RawBlock)

/-- Tag number of a block. -/
def RawBlock.tag : RawBlock → Nat
  | .node t _ _ _ => t

/-- Whether the block is constructed. -/
def RawBlock.constructed : RawBlock → Bool
  | .node _ c _ _ => c

/-- The text `decodeString` produces for the block. -/
def RawBlock.text : RawBlock → String
  | .node _ _ s _ => s

/-- Child blocks. -/
def RawBlock.children : RawBlock → List RawBlock
  | .node _ _ _ cs => cs

/-- The substrings-accumulation step of `LDAPCodec.parseFilter`: tag 0
pushes an initial part, tag 1 extends the last element's `any` list (or
starts one), tag 2 pushes a final part, anything else is skipped. -/
def parseSubStep (subs : List SubstringComponent) (b : RawBlock) : List SubstringComponent :=
  if b.tag = 0 then subs ++ [{ initial := some b.text }]
  else if b.tag = 1 then
    match subs.getLast? with
    | some last =>
        match last.any with
        | some l => subs.dropLast ++ [{ last with any := some (l ++ [b.text]) }]
        | none => subs ++ [{ any := some [b.text] }]
    | none => subs ++ [{ any := some [b.text] }]
  else if b.tag = 2 then subs ++ [{ final := some b.text }]
  else subs

mutual

/-- Embedding of `LDAPCodec.parseFilter` (src/protocol/ldap.ts:534-620):
recognized tags 0/1/2 (and/or/not), 3 (equality), 4 (substrings),
7 (present); any other tag falls back to a Present filter on the block's
decoded text when that is non-empty, else throws. -/
def parseFilter : RawBlock → Except String Filter
  | .node tag constructed text children =>
    if tag = 0 then
      if !constructed then .error "And filter must be constructed"
      else (parseFilterList children).map .and
    else if tag = 1 then
      if !constructed then .error "Or filter must be constructed"
      else (parseFilterList children).map .or
    else if tag = 2 then
      if !constructed then .error "Not filter must be constructed"
      else
        match children with
        | [] => .error "Invalid Not filter"
        | c :: _ => (parseFilter c).map .not
    else if tag = 3 then
      if !constructed then .error "Equality filter must be constructed"
      else
        match children with
        | c0 :: c1 :: _ => pure (.equalityMatch c0.text c1.text)
        | _ => .error "Equality attribute must be OctetString"
    else if tag = 4 then
      if !constructed then .error "Substrings filter must be constructed"
      else
        match children with
        | c0 :: c1 :: _ =>
            if !c1.constructed then .error "Substrings list must be constructed"
            else pure (.substrings c0.text (c1.children.foldl parseSubStep []))
        | _ => .error "Substrings type must be OctetString"
    else if tag = 7 then pure (.present text)
    else if text ≠ "" then pure (.present text)
    else .error "Unsupported or unrecognized filter tag"

/-- `parseFilter` over a child list, failing on the first failing child
(the `for` loop pushing `this.parseFilter(b)`). -/
def parseFilterList : List RawBlock → Except String (List Filter)
  | [] => .ok []
  | b :: rest =>
      match parseFilter b with
      | .error e => .error e
      | .ok f =>
          match parseFilterList rest with
          | .error e => .error e
          | .ok fs => .ok (f :: fs)

end

/-- The SearchRequest filter decoding of `LDAPCodec.decode`
(src/protocol/ldap.ts:488-498): a `parseFilter` failure is caught and
replaced by the broad `(objectClass=*)` Present filter. -/
def decodeSearchFilter (b : RawBlock) : Filter :=
  match parseFilter b with
  | .ok f => f
  | .error _ => .present "objectClass"

/-! ### Concrete search inputs used by witnesses and counterexamples -/

/-- Server options with base DN `dc=x`, default size limit, anonymous
binds allowed. -/
def c5Srv : LDAPServerConfig :=
  { bindDN := none, bindPassword := none, baseDN := "dc=x", sizeLimit := 1000,
    allowAnonymousBind := true }

/-- User `bob` (listed first in the snapshot). -/
def c7UserBob : User :=
  { id := "u2", username := "bob", displayName := "bob", email := none, active := true,
    posixUid := 10043, primaryGroupId := "users", memberGroupIds := [],
    createdAt := "t", updatedAt := "t" }

/-- User `alice` (listed second in the snapshot). -/
def c7UserAlice : User :=
  { id := "u1", username := "alice", displayName := "alice", email := none, active := true,
    posixUid := 10042, primaryGroupId := "users", memberGroupIds := [],
    createdAt := "t", updatedAt := "t" }

/-- Snapshot with the two users in descending-uid order. -/
def c7Snap : Snapshot :=
  { users := [c7UserBob, c7UserAlice], groups := [], generatedAt := "t", sequence := 1,
    featureFlags := [] }

/-- Whole-subtree `(objectClass=*)` search over `dc=x` without a client
size limit. -/
def c7Request : SearchRequest :=
  { baseObject := "dc=x", scope := 2, derefAliases := 0, sizeLimit := 0, timeLimit := 0,
    typesOnly := false, filter := .present "objectClass", attributes := [] }

/-- The same search with a client size limit of 1. -/
def c5Req : SearchRequest :=
  { baseObject := "dc=x", scope := 2, derefAliases := 0, sizeLimit := 1, timeLimit := 0,
    typesOnly := false, filter := .present "objectClass", attributes := [] }

/-- An extensibleMatch filter block (tag 9), whose decoded text is
`pager`. -/
def c6Block : RawBlock :=
  .node 9 false "pager" []

/-! ## Theorems -/

theorem hashSearch_zero (cfg : AllocConfig) (byId : List (Nat × String)) (key : String)
    (attempt : Nat) : hashSearch cfg byId key attempt 0 = (.exhausted, 0) := rfl

theorem specFirstValid_zero (cfg : AllocConfig) (free : Nat → Bool) (h : Nat → Nat)
    (attempt : Nat) : specFirstValid cfg free h attempt 0 = none := rfl

theorem hashSearch_matches_spec (cfg : AllocConfig) (byId : List (Nat × String)) (key : String)
    (hkey : ∀ i, lookupId byId i ≠ some key) :
    ∀ fuel attempt,
      (hashSearch cfg byId key attempt fuel).1 =
        (match specFirstValid cfg (freeIn byId)
            (fun t => hashToInt (attemptInput cfg.salt t key)) attempt fuel with
          | some (id, a) => HashOutcome.committed id a
          | none => HashOutcome.exhausted) := by
  intro fuel
  induction fuel with
  | zero => intro attempt; rfl
  | succ fuel ih =>
      intro attempt
      show (hashSearch cfg byId key attempt (fuel + 1)).1 = _
      rw [hashSearch, specFirstValid]
      by_cases h1 : hashToInt (attemptInput cfg.salt attempt key) ≤ cfg.floor
      · have h1' : ¬ (cfg.floor < hashToInt (attemptInput cfg.salt attempt key) ∧
            (cfg.ceiling = 0 ∨ hashToInt (attemptInput cfg.salt attempt key) ≤ cfg.ceiling) ∧
            freeIn byId (hashToInt (attemptInput cfg.salt attempt key))) := by
          intro hc; exact absurd hc.1 (by omega)
        simp only [h1, if_true, h1', if_neg, if_false]
        exact ih (attempt + 1)
      · by_cases h2 : cfg.ceiling ≠ 0 ∧ cfg.ceiling < hashToInt (attemptInput cfg.salt attempt key)
        · have h2' : ¬ (cfg.floor < hashToInt (attemptInput cfg.salt attempt key) ∧
              (cfg.ceiling = 0 ∨ hashToInt (attemptInput cfg.salt attempt key) ≤ cfg.ceiling) ∧
              freeIn byId (hashToInt (attemptInput cfg.salt attempt key))) := by
            rintro ⟨-, hc, -⟩
            rcases hc with hc | hc
            · exact h2.1 hc
            · omega
          rw [if_neg h1, if_pos h2, if_neg h2']
          exact ih (attempt + 1)
        · rcases hl : lookupId byId (hashToInt (attemptInput cfg.salt attempt key)) with _ | k
          · have hcond : cfg.floor < hashToInt (attemptInput cfg.salt attempt key) ∧
                (cfg.ceiling = 0 ∨ hashToInt (attemptInput cfg.salt attempt key) ≤ cfg.ceiling) ∧
                freeIn byId (hashToInt (attemptInput cfg.salt attempt key)) := by
              refine ⟨by omega, ?_, ?_⟩
              · by_cases hz : cfg.ceiling = 0
                · exact Or.inl hz
                · refine Or.inr ?_
                  have : ¬ cfg.ceiling < hashToInt (attemptInput cfg.salt attempt key) :=
                    fun hlt => h2 ⟨hz, hlt⟩
                  omega
              · simp [freeIn, hl]
            rw [if_neg h1, if_neg h2, if_pos hcond]
          · have hk : k ≠ key := fun he => hkey _ (he ▸ hl)
            have hcond : ¬ (cfg.floor < hashToInt (attemptInput cfg.salt attempt key) ∧
                (cfg.ceiling = 0 ∨ hashToInt (attemptInput cfg.salt attempt key) ≤ cfg.ceiling) ∧
                freeIn byId (hashToInt (attemptInput cfg.salt attempt key))) := by
              rintro ⟨-, -, hfree⟩
              simp [freeIn, hl] at hfree
            rw [if_neg h1, if_neg h2, if_neg hcond]
            simp only [if_neg hk]
            exact ih (attempt + 1)

/-- C2 (amended): for a key not already in the map, `allocate` follows the
spec's attempt loop (attempts `0..retryLimit`, floor/ceiling screening,
first free id committed with `hashed = true` and `collisionCount` equal to
the attempt index, sequential fallback with `hashed = false`), except that
the FNV-1a 64-bit hash is computed over the UTF-16 code units of
`salt ++ ":" ++ attempt ++ ":" ++ key` (JavaScript `charCodeAt`), not over
its UTF-8 bytes; the two agree exactly on ASCII input. -/
theorem allocate_fresh_key_characterization (cfg : AllocConfig) (st : AllocState) (key : String)
    (hfresh : lookupKey st.byKey key = none)
    (hnorev : ∀ i, lookupId st.byId i ≠ some key) :
    (∀ id a, specFirstValid cfg (freeIn st.byId)
        (fun t => hashToInt (attemptInput cfg.salt t key)) 0 (cfg.retryLimit + 1)
          = some (id, a) →
        (allocate cfg st key).map allocProj = some (id, true, a)) ∧
    (specFirstValid cfg (freeIn st.byId)
        (fun t => hashToInt (attemptInput cfg.salt t key)) 0 (cfg.retryLimit + 1) = none →
        (allocate cfg st key).map allocProj =
          (nextSequential cfg st.byId st.nextSeq).map
            (fun p => (p.1, false, cfg.retryLimit + 1))) := by
  have hmain := hashSearch_matches_spec cfg st.byId key hnorev (cfg.retryLimit + 1) 0
  constructor
  · intro id a hspec
    rw [hspec] at hmain
    rcases hres : hashSearch cfg st.byId key 0 (cfg.retryLimit + 1) with ⟨o, colls⟩
    rw [hres] at hmain
    simp only at hmain
    subst hmain
    simp [allocate, hfresh, hres, allocProj]
  · intro hspec
    rw [hspec] at hmain
    rcases hres : hashSearch cfg st.byId key 0 (cfg.retryLimit + 1) with ⟨o, colls⟩
    rw [hres] at hmain
    simp only at hmain
    subst hmain
    rcases hseq : nextSequential cfg st.byId st.nextSeq with _ | ⟨id, seq'⟩
    · simp [allocate, hfresh, hres, hseq]
    · simp [allocate, hfresh, hres, hseq, allocProj]

theorem allocate_fresh_key_characterization_witness :
    (allocate { salt := "s" } (AllocState.init { salt := "s" }) "k").map allocProj
      = some (780531879, true, 0) := by
  have h := allocate_fresh_key_characterization { salt := "s" }
    (AllocState.init { salt := "s" }) "k" rfl
    (by intro i hi; exact Option.noConfusion hi)
  exact h.1 780531879 0 (by decide)

/-- C2 (counterexample): on the non-ASCII key `"é"` the committed id is the
fold of FNV-1a over the UTF-16 code units (780588429), while the claim's
UTF-8-byte hash would select 245640626 at the same first attempt — both
above the floor and free — so the claim's description of the committed id
is false. -/
theorem allocate_utf8_counterexample :
    (allocate { salt := "s" } (AllocState.init { salt := "s" }) "é").map allocProj
        = some (780588429, true, 0) ∧
    specFirstValid { salt := "s" } (freeIn [])
        (fun t => specHashId "s" t "é") 0 5 = some (245640626, 0) ∧
    (780588429 : Nat) ≠ 245640626 := by
  refine ⟨by decide, by decide, by decide⟩

/-- C1 (counterexample): with `allowAnonymousBind = false` and no service
account configured, the empty/empty bind still succeeds, so success is not
equivalent to `allowAnonymousBind` being true. -/
theorem anonymousBind_success_iff_counterexample :
    ¬ (((handleBind
          { bindDN := none, bindPassword := none, baseDN := "dc=example,dc=com",
            sizeLimit := 1000, allowAnonymousBind := false } anonymousBindRequest).resultCode
            = successCode) ↔
        ({ bindDN := none, bindPassword := none, baseDN := "dc=example,dc=com",
           sizeLimit := 1000, allowAnonymousBind := false } : LDAPServerConfig).allowAnonymousBind
            = true) := by
  decide

/-- C1 (amended): for every configuration, a simple bind with empty DN and
empty password returns Success if and only if `allowAnonymousBind` is true
or neither a bind DN nor a bind password is configured (both absent or
empty); otherwise the result is not Success. -/
theorem anonymousBind_success_iff (cfg : LDAPServerConfig) :
    (handleBind cfg anonymousBindRequest).resultCode = successCode ↔
      (cfg.allowAnonymousBind = true ∨
        (truthy cfg.bindDN = false ∧ truthy cfg.bindPassword = false)) := by
  by_cases ha : cfg.allowAnonymousBind
  · simp [handleBind, ha, successCode]
  · by_cases hd : truthy cfg.bindDN
    · have hvalid : eqOptStr "" cfg.bindDN = false := by
        cases h : cfg.bindDN with
        | none => rfl
        | some s =>
            rw [h] at hd
            simp only [truthy, decide_eq_true_eq] at hd
            simp [eqOptStr, Ne.symm hd]
      simp [handleBind, anonymousBindRequest, ha, hd, hvalid, successCode,
        invalidCredentialsCode]
    · by_cases hp : truthy cfg.bindPassword
      · have hvalid : eqOptStr "" cfg.bindPassword = false := by
          cases h : cfg.bindPassword with
          | none => rfl
          | some s =>
              rw [h] at hp
              simp only [truthy, decide_eq_true_eq] at hp
              simp [eqOptStr, Ne.symm hp]
        simp [handleBind, anonymousBindRequest, ha, hd, hp, hvalid, successCode,
          invalidCredentialsCode]
      · simp [handleBind, ha, hd, hp, successCode]

/-- C10: when `allowAnonymousBind` is true, `handleBind` returns Success for
every BindRequest — any DN, any password, and SASL alike — so the configured
service-account credentials are never checked in that mode. -/
theorem handleBind_allowAnonymous_always_success (dn pw : Option String) (base : String)
    (lim : Nat) (req : BindRequest) :
    (handleBind
      { bindDN := dn, bindPassword := pw, baseDN := base, sizeLimit := lim,
        allowAnonymousBind := true } req).resultCode = successCode := by
  simp [handleBind]

theorem hashSearch_committed_facts (cfg : AllocConfig) (byId : List (Nat × String))
    (key : String) : ∀ fuel attempt id a,
    (hashSearch cfg byId key attempt fuel).1 = .committed id a →
    cfg.floor < id ∧ lookupId byId id = none := by
  intro fuel
  induction fuel with
  | zero => intro attempt id a h; exact absurd h (by simp [hashSearch])
  | succ fuel ih =>
      intro attempt id a h
      rw [hashSearch] at h
      by_cases h1 : hashToInt (attemptInput cfg.salt attempt key) ≤ cfg.floor
      · rw [if_pos h1] at h; exact ih _ _ _ h
      · rw [if_neg h1] at h
        by_cases h2 : cfg.ceiling ≠ 0 ∧ cfg.ceiling < hashToInt (attemptInput cfg.salt attempt key)
        · rw [if_pos h2] at h; exact ih _ _ _ h
        · rw [if_neg h2] at h
          rcases hl : lookupId byId (hashToInt (attemptInput cfg.salt attempt key)) with _ | k
          · rw [hl] at h
            simp only at h
            cases h
            exact ⟨by omega, hl⟩
          · rw [hl] at h
            simp only at h
            by_cases hk : k = key
            · rw [if_pos hk] at h; exact absurd h (by simp)
            · rw [if_neg hk] at h; exact ih _ _ _ h

theorem hashSearch_uncommitted_facts (cfg : AllocConfig) (byId : List (Nat × String))
    (key : String) : ∀ fuel attempt id a,
    (hashSearch cfg byId key attempt fuel).1 = .uncommitted id a →
    lookupId byId id = some key := by
  intro fuel
  induction fuel with
  | zero => intro attempt id a h; exact absurd h (by simp [hashSearch])
  | succ fuel ih =>
      intro attempt id a h
      rw [hashSearch] at h
      by_cases h1 : hashToInt (attemptInput cfg.salt attempt key) ≤ cfg.floor
      · rw [if_pos h1] at h; exact ih _ _ _ h
      · rw [if_neg h1] at h
        by_cases h2 : cfg.ceiling ≠ 0 ∧ cfg.ceiling < hashToInt (attemptInput cfg.salt attempt key)
        · rw [if_pos h2] at h; exact ih _ _ _ h
        · rw [if_neg h2] at h
          rcases hl : lookupId byId (hashToInt (attemptInput cfg.salt attempt key)) with _ | k
          · rw [hl] at h
            simp only at h
            exact absurd h (by simp)
          · rw [hl] at h
            simp only at h
            by_cases hk : k = key
            · rw [if_pos hk] at h
              simp only at h
              cases h
              exact hk ▸ hl
            · rw [if_neg hk] at h; exact ih _ _ _ h

theorem leastFree_not_taken (taken : List Nat) (c : Nat) : leastFree taken c ∉ taken :=
  Nat.find_spec (exists_free_candidate taken c)

theorem le_leastFree (taken : List Nat) (c : Nat) : c ≤ leastFree taken c :=
  Nat.le_add_right c _

theorem lookupId_eq_none_of_not_taken (byId : List (Nat × String)) (id : Nat)
    (h : id ∉ takenIds byId) : lookupId byId id = none := by
  induction byId with
  | nil => rfl
  | cons p rest ih =>
      simp only [takenIds, List.map_cons, List.mem_cons] at h
      push_neg at h
      rcases p with ⟨i, k⟩
      have hne : i ≠ id := fun he => h.1 he.symm
      simp only [lookupId, if_neg hne]
      exact ih h.2

theorem allocWF_of_cons (cfg : AllocConfig) (st st' : AllocState) (key : String) (id : Nat)
    (hwf : AllocWF cfg st)
    (hkey : lookupKey st.byKey key = none)
    (hid : lookupId st.byId id = none)
    (hfloor : cfg.floor < id)
    (hbk : st'.byKey = (key, id) :: st.byKey)
    (hbi : st'.byId = (id, key) :: st.byId)
    (hns : cfg.floor < st'.nextSeq) : AllocWF cfg st' := by
  refine ⟨?_, ?_, ?_, hns⟩
  · intro k i h
    rw [hbk] at h
    rw [hbi]
    simp only [lookupKey] at h
    by_cases hkk : key = k
    · rw [if_pos hkk] at h
      cases h
      simp [lookupId, hkk]
    · rw [if_neg hkk] at h
      have hold := hwf.consistKI k i h
      have hine : id ≠ i := by
        intro he
        rw [← he] at hold
        rw [hid] at hold
        cases hold
      simp only [lookupId, if_neg hine]
      exact hold
  · intro i k h
    rw [hbi] at h
    rw [hbk]
    simp only [lookupId] at h
    by_cases hii : id = i
    · rw [if_pos hii] at h
      cases h
      simp [lookupKey, hii]
    · rw [if_neg hii] at h
      have hold := hwf.consistIK i k h
      have hkne : key ≠ k := by
        intro he
        rw [← he] at hold
        rw [hkey] at hold
        cases hold
      simp only [lookupKey, if_neg hkne]
      exact hold
  · intro i k h
    rw [hbi] at h
    simp only [lookupId] at h
    by_cases hii : id = i
    · rw [if_pos hii] at h; omega
    · rw [if_neg hii] at h; exact hwf.aboveFloor i k h

theorem allocate_step (cfg : AllocConfig) (st : AllocState) (key : String)
    (r : AllocationResult) (st' : AllocState)
    (hwf : AllocWF cfg st)
    (halloc : allocate cfg st key = some (r, st')) :
    AllocWF cfg st' ∧
    cfg.floor < r.id ∧
    lookupKey st'.byKey key = some r.id ∧
    (∀ k v, lookupKey st.byKey k = some v → lookupKey st'.byKey k = some v) := by
  rw [allocate] at halloc
  rcases hex : lookupKey st.byKey key with _ | existing
  · rw [hex] at halloc
    simp only at halloc
    rcases hres : hashSearch cfg st.byId key 0 (cfg.retryLimit + 1) with ⟨o, colls⟩
    rw [hres] at halloc
    cases o with
    | committed id a =>
        simp only [Option.some.injEq, Prod.mk.injEq] at halloc
        obtain ⟨hr, hst⟩ := halloc
        subst hr
        subst hst
        have hfacts := hashSearch_committed_facts cfg st.byId key (cfg.retryLimit + 1) 0 id a
          (by rw [hres])
        have hwf' := allocWF_of_cons cfg st
          { st with byKey := (key, id) :: st.byKey, byId := (id, key) :: st.byId,
                    collisions := st.collisions + colls }
          key id hwf hex hfacts.2 hfacts.1 rfl rfl hwf.nextSeqAbove
        refine ⟨hwf', hfacts.1, by simp [lookupKey], ?_⟩
        intro k v h
        have hkne : key ≠ k := by
          intro he
          rw [← he, hex] at h
          cases h
        simp only [lookupKey, if_neg hkne]
        exact h
    | uncommitted id a =>
        have hfacts := hashSearch_uncommitted_facts cfg st.byId key (cfg.retryLimit + 1) 0 id a
          (by rw [hres])
        have hcontra := hwf.consistIK id key hfacts
        rw [hex] at hcontra
        cases hcontra
    | exhausted =>
        simp only at halloc
        rcases hseq : nextSequential cfg st.byId st.nextSeq with _ | ⟨id, seq'⟩
        · rw [hseq] at halloc; cases halloc
        · rw [hseq] at halloc
          simp only [Option.some.injEq, Prod.mk.injEq] at halloc
          obtain ⟨hr, hst⟩ := halloc
          subst hr
          subst hst
          rw [nextSequential] at hseq
          by_cases hc : cfg.ceiling ≠ 0 ∧ cfg.ceiling < leastFree (takenIds st.byId) st.nextSeq
          · rw [if_pos hc] at hseq; cases hseq
          · rw [if_neg hc] at hseq
            simp only [Option.some.injEq, Prod.mk.injEq] at hseq
            obtain ⟨hid', hseq'⟩ := hseq
            have hidfree : lookupId st.byId id = none := by
              rw [← hid']
              exact lookupId_eq_none_of_not_taken _ _ (leastFree_not_taken _ _)
            have hidfloor : cfg.floor < id := by
              have h1 := le_leastFree (takenIds st.byId) st.nextSeq
              have h2 := hwf.nextSeqAbove
              omega
            have hwf' := allocWF_of_cons cfg st
              { st with byKey := (key, id) :: st.byKey, byId := (id, key) :: st.byId,
                        nextSeq := seq', collisions := st.collisions + colls,
                        fallbacks := st.fallbacks + 1 }
              key id hwf hex hidfree hidfloor rfl rfl
              (by
                show cfg.floor < seq'
                have h1 := le_leastFree (takenIds st.byId) st.nextSeq
                have h2 := hwf.nextSeqAbove
                omega)
            refine ⟨hwf', hidfloor, by simp [lookupKey], ?_⟩
            intro k v h
            have hkne : key ≠ k := by
              intro he
              rw [← he, hex] at h
              cases h
            simp only [lookupKey, if_neg hkne]
            exact h
  · rw [hex] at halloc
    simp only at halloc
    cases halloc
    have hrev := hwf.consistKI key existing hex
    refine ⟨hwf, hwf.aboveFloor existing key hrev, hex, fun k v h => h⟩

theorem failedRefreshCycle_keeps_snapshot (cfg : SchedulerConfig) (st : SchedulerState) :
    (failedRefreshCycle cfg st).currentSnapshot = st.currentSnapshot := by
  unfold failedRefreshCycle scheduleNext performRefresh
  split_ifs <;> rfl

/-- C4: a failed build never touches the scheduler's current-snapshot
reference: any number of consecutive failed refresh cycles (each a
`performRefresh` whose build threw, followed by `scheduleNext`) — below,
at, or past `maxRetries` — leaves `currentSnapshot` exactly as it was, so
readers keep being served the previous good snapshot. -/
theorem refresh_failures_never_replace_snapshot (cfg : SchedulerConfig) (st : SchedulerState)
    (n : Nat) :
    ((failedRefreshCycle cfg)^[n] st).currentSnapshot = st.currentSnapshot := by
  induction n generalizing st with
  | zero => rfl
  | succ n ih =>
      rw [Function.iterate_succ_apply, ih]
      exact failedRefreshCycle_keeps_snapshot cfg st

/-- C3 (amended): with the same adapter output, the same allocator states,
the same feature flags and the same clock reading, two builds agree on
everything except the `sequence` field: users, groups, `generatedAt`,
`featureFlags` and the resulting allocator states are identical whatever
the two sequence-counter values are. -/
theorem buildSnapshot_deterministic_modulo_sequence (bc : BuilderConfig)
    (rawUsers : List RawUser) (rawGroups : List RawGroup) (uidSt gidSt : AllocState)
    (seq1 seq2 : Nat) (now : String) :
    (buildSnapshot bc rawUsers rawGroups uidSt gidSt seq1 now).map buildProj =
    (buildSnapshot bc rawUsers rawGroups uidSt gidSt seq2 now).map buildProj := by
  unfold buildSnapshot
  cases hu : allocUsers bc now (rawUsers.filter fun u => u.enabled) uidSt with
  | none => rfl
  | some p =>
      obtain ⟨users, uidSt'⟩ := p
      dsimp only
      cases hp : processGroups bc rawGroups users gidSt with
      | none => rfl
      | some q =>
          obtain ⟨groups, users', gidSt'⟩ := q
          dsimp only
          cases hs : (if bc.enabledFeatures.contains "synthetic_primary_group" then
              createSyntheticPrimaryGroups bc users' gidSt' else some ([], gidSt')) with
          | none => rfl
          | some r =>
              obtain ⟨synth, gidSt''⟩ := r
              rfl

/-- C3 (counterexample): running the build twice in succession over the
same adapter output, the same allocator state and the same feature flags —
even at the same clock reading — produces two different snapshots: the
`sequence` field increments from 1 to 2, so the snapshots are not
byte-identical. -/
theorem buildSnapshot_double_run_counterexample :
    buildSnapshot smallBC [c3Raw] [] (AllocState.init { salt := "u" })
        (AllocState.init { salt := "g" }) 0 "t"
      = some (c3Snap 1, c3USt, AllocState.init { salt := "g" }, 1) ∧
    buildSnapshot smallBC [c3Raw] [] c3USt (AllocState.init { salt := "g" }) 1 "t"
      = some (c3Snap 2, c3USt, AllocState.init { salt := "g" }, 2) ∧
    c3Snap 1 ≠ c3Snap 2 := by
  refine ⟨by decide, by decide, by decide⟩

theorem processGroups_member_spec (bc : BuilderConfig) :
    ∀ (rawGroups : List RawGroup) (users : List User) (st : AllocState)
      (gs : List Group) (users' : List User) (st' : AllocState),
      processGroups bc rawGroups users st = some (gs, users', st') →
      gs.map (fun g => (g.memberUserIds.length, g.memberUserIds, g.truncated)) =
        rawGroups.map (fun rg =>
          if (rg.members.getD []).length > bc.maxGroupMembers
          then (bc.maxGroupMembers, (rg.members.getD []).take bc.maxGroupMembers, true)
          else ((rg.members.getD []).length, rg.members.getD [], false)) := by
  intro rawGroups
  induction rawGroups with
  | nil =>
      intro users st gs users' st' h
      rw [processGroups] at h
      simp only [Option.some.injEq, Prod.mk.injEq] at h
      obtain ⟨h1, -, -⟩ := h
      subst h1
      rfl
  | cons g rest ih =>
      intro users st gs users' st' h
      rw [processGroups] at h
      rcases halloc : allocate bc.gidCfg st ("group:" ++ g.id) with _ | ⟨r, st1⟩
      · rw [halloc] at h; exact Option.noConfusion h
      · rw [halloc] at h
        dsimp only at h
        rcases hrec : processGroups bc rest
            ((groupFinalMembers bc g).foldl (fun us uid => pushGroupId g.id uid us) users) st1
          with _ | ⟨gs1, users1, st2⟩
        · rw [hrec] at h; exact Option.noConfusion h
        · rw [hrec] at h
          simp only [Option.some.injEq, Prod.mk.injEq] at h
          obtain ⟨h1, -, -⟩ := h
          subst h1
          have htail := ih _ _ _ _ _ hrec
          simp only [List.map_cons, htail]
          by_cases hbig : (g.members.getD []).length > bc.maxGroupMembers
          · have hfm : groupFinalMembers bc g = (g.members.getD []).take bc.maxGroupMembers := by
              simp [groupFinalMembers, hbig]
            have htr : groupTruncated bc g = true := by
              simp [groupTruncated, hbig]
            have hlen : ((g.members.getD []).take bc.maxGroupMembers).length
                = bc.maxGroupMembers := by
              rw [List.length_take]
              omega
            simp [hfm, htr, hlen, hbig]
          · have hfm : groupFinalMembers bc g = g.members.getD [] := by
              simp [groupFinalMembers, hbig]
            have htr : groupTruncated bc g = false := by
              simp [groupTruncated, hbig]
            simp [hfm, htr, hbig]

/-- C8: every raw group appears in the built snapshot at its own position;
when its adapter-provided member list exceeds `maxGroupMembers` the stored
group keeps exactly `maxGroupMembers` members (the list's initial slice)
with `truncated = true`, and otherwise it keeps the full member list with
`truncated = false`. -/
theorem buildSnapshot_group_truncation (bc : BuilderConfig) (rawUsers : List RawUser)
    (rawGroups : List RawGroup) (uidSt gidSt : AllocState) (seq : Nat) (now : String)
    (snap : Snapshot) (uidSt' gidSt' : AllocState) (seq' : Nat)
    (hbuild : buildSnapshot bc rawUsers rawGroups uidSt gidSt seq now
      = some (snap, uidSt', gidSt', seq')) :
    (snap.groups.take rawGroups.length).map
        (fun g => (g.memberUserIds.length, g.memberUserIds, g.truncated)) =
      rawGroups.map (fun rg =>
        if (rg.members.getD []).length > bc.maxGroupMembers
        then (bc.maxGroupMembers, (rg.members.getD []).take bc.maxGroupMembers, true)
        else ((rg.members.getD []).length, rg.members.getD [], false)) := by
  rw [buildSnapshot] at hbuild
  rcases hu : allocUsers bc now (rawUsers.filter fun u => u.enabled) uidSt with _ | ⟨users, uidSt1⟩
  · rw [hu] at hbuild; exact Option.noConfusion hbuild
  · rw [hu] at hbuild
    dsimp only at hbuild
    rcases hp : processGroups bc rawGroups users gidSt with _ | ⟨groups, users', gidSt1⟩
    · rw [hp] at hbuild; exact Option.noConfusion hbuild
    · rw [hp] at hbuild
      dsimp only at hbuild
      rcases hs : (if bc.enabledFeatures.contains "synthetic_primary_group" then
          createSyntheticPrimaryGroups bc users' gidSt1 else some ([], gidSt1))
        with _ | ⟨synth, gidSt2⟩
      · rw [hs] at hbuild; exact Option.noConfusion hbuild
      · rw [hs] at hbuild
        simp only [Option.some.injEq, Prod.mk.injEq] at hbuild
        obtain ⟨hsnap, -⟩ := hbuild
        have hspec := processGroups_member_spec bc rawGroups users gidSt groups users' gidSt1 hp
        have hlen : groups.length = rawGroups.length := by
          have := congrArg List.length hspec
          simpa using this
        rw [← hsnap]
        simp only
        rw [List.take_left' hlen]
        exact hspec

theorem foldl_pushGroupId_nil (gid : String) :
    ∀ l : List String, l.foldl (fun us uid => pushGroupId gid uid us) ([] : List User) = [] := by
  intro l
  induction l with
  | nil => rfl
  | cons x xs ih =>
      rw [List.foldl_cons]
      exact ih

theorem c8_groupFinalMembers_eval : groupFinalMembers smallBC c8Raw = List.replicate 5000 "m" := by
  rw [groupFinalMembers]
  simp only [smallBC, c8Raw, Option.getD_some, List.length_replicate]
  rw [if_pos (by norm_num : 5001 > 5000), List.take_replicate]
  norm_num

theorem c8_groupTruncated_eval : groupTruncated smallBC c8Raw = true := by
  rw [groupTruncated]
  simp only [smallBC, c8Raw, Option.getD_some, List.length_replicate]
  norm_num

theorem c8_build_eval :
    buildSnapshot smallBC [] [c8Raw] (AllocState.init { salt := "u" })
        (AllocState.init { salt := "g" }) 0 "t"
      = some (c8Snap, AllocState.init { salt := "u" }, c8GSt, 1) := by
  have halloc : allocate smallBC.gidCfg (AllocState.init { salt := "g" })
      ("group:" ++ c8Raw.id)
      = some ({ id := 1981113325, hashed := true, collisionCount := 0 }, c8GSt) := by decide
  have h2 : processGroups smallBC [c8Raw] [] (AllocState.init { salt := "g" })
      = some ([c8Group], [], c8GSt) := by
    rw [processGroups, halloc]
    dsimp only
    have h3 : processGroups smallBC []
        ((groupFinalMembers smallBC c8Raw).foldl
          (fun us uid => pushGroupId c8Raw.id uid us) []) c8GSt
        = some ([], (groupFinalMembers smallBC c8Raw).foldl
            (fun us uid => pushGroupId c8Raw.id uid us) [], c8GSt) := by
      rw [processGroups]
    rw [h3]
    dsimp only
    rw [foldl_pushGroupId_nil, c8_groupFinalMembers_eval, c8_groupTruncated_eval]
    rfl
  rw [buildSnapshot]
  have h1 : allocUsers smallBC "t" (List.filter (fun u => u.enabled) [])
      (AllocState.init { salt := "u" })
      = some ([], AllocState.init { salt := "u" }) := rfl
  rw [h1]
  dsimp only
  rw [h2]
  dsimp only
  rfl

theorem buildSnapshot_group_truncation_witness :
    buildSnapshot smallBC [] [c8Raw] (AllocState.init { salt := "u" })
        (AllocState.init { salt := "g" }) 0 "t"
      = some (c8Snap, AllocState.init { salt := "u" }, c8GSt, 1) ∧
    (c8Snap.groups.take 1).map
        (fun g => (g.memberUserIds.length, g.memberUserIds, g.truncated))
      = [(5000, List.replicate 5000 "m", true)] := by
  refine ⟨c8_build_eval, ?_⟩
  have h := buildSnapshot_group_truncation smallBC [] [c8Raw] (AllocState.init { salt := "u" })
    (AllocState.init { salt := "g" }) 0 "t" c8Snap (AllocState.init { salt := "u" }) c8GSt 1
    c8_build_eval
  rw [show ([c8Raw] : List RawGroup).length = 1 from rfl] at h
  rw [h]
  simp only [List.map_cons, List.map_nil, c8Raw, smallBC, Option.getD_some,
    List.length_replicate]
  rw [if_pos (by norm_num : 5001 > 5000), List.take_replicate]
  norm_num

theorem string_append_left_cancel {s a b : String} (h : s ++ a = s ++ b) : a = b := by
  cases s with | mk sd =>
  cases a with | mk ad =>
  cases b with | mk bd =>
  have h2 : sd ++ ad = sd ++ bd := congrArg String.data h
  exact congrArg String.mk (List.append_cancel_left h2)

theorem allocUsers_spec (bc : BuilderConfig) (now : String) :
    ∀ (l : List RawUser) (st : AllocState) (us : List User) (st' : AllocState),
      AllocWF bc.uidCfg st →
      allocUsers bc now l st = some (us, st') →
      AllocWF bc.uidCfg st' ∧
      us.map User.id = l.map RawUser.id ∧
      (∀ k v, lookupKey st.byKey k = some v → lookupKey st'.byKey k = some v) ∧
      (∀ u ∈ us, bc.uidCfg.floor < u.posixUid ∧
        lookupKey st'.byKey ("user:" ++ u.id) = some u.posixUid) := by
  intro l
  induction l with
  | nil =>
      intro st us st' hwf h
      rw [allocUsers] at h
      simp only [Option.some.injEq, Prod.mk.injEq] at h
      obtain ⟨h1, h2⟩ := h
      subst h1
      subst h2
      exact ⟨hwf, rfl, fun k v hv => hv, by simp⟩
  | cons u rest ih =>
      intro st us st' hwf h
      rw [allocUsers] at h
      rcases halloc : allocate bc.uidCfg st ("user:" ++ u.id) with _ | ⟨r, st1⟩
      · rw [halloc] at h; exact Option.noConfusion h
      · rw [halloc] at h
        dsimp only at h
        rcases hrec : allocUsers bc now rest st1 with _ | ⟨us1, st2⟩
        · rw [hrec] at h; exact Option.noConfusion h
        · rw [hrec] at h
          simp only [Option.some.injEq, Prod.mk.injEq] at h
          obtain ⟨h1, h2⟩ := h
          subst h1
          subst h2
          have hstep := allocate_step bc.uidCfg st ("user:" ++ u.id) r st1 hwf halloc
          have htail := ih st1 us1 st2 hstep.1 hrec
          refine ⟨htail.1, ?_, ?_, ?_⟩
          · simp [htail.2.1]
          · intro k v hv
            exact htail.2.2.1 k v (hstep.2.2.2 k v hv)
          · intro x hx
            rcases List.mem_cons.mp hx with rfl | hx'
            · exact ⟨hstep.2.1, htail.2.2.1 _ _ hstep.2.2.1⟩
            · exact htail.2.2.2 x hx'

theorem updateLast_map_posixUid (p : User → Bool) (f : User → User)
    (hf : ∀ u, (f u).posixUid = u.posixUid) :
    ∀ l : List User, (updateLast p f l).map User.posixUid = l.map User.posixUid := by
  intro l
  induction l with
  | nil => rfl
  | cons u rest ih =>
      rw [updateLast]
      by_cases h1 : rest.any p
      · rw [if_pos h1, List.map_cons, List.map_cons, ih]
      · rw [if_neg h1]
        by_cases h2 : p u
        · rw [if_pos h2, List.map_cons, List.map_cons, hf]
        · rw [if_neg h2]

theorem foldl_pushGroupId_map_posixUid (gid : String) :
    ∀ (l : List String) (users : List User),
      (l.foldl (fun us uid => pushGroupId gid uid us) users).map User.posixUid
        = users.map User.posixUid := by
  intro l
  induction l with
  | nil => intro users; rfl
  | cons x xs ih =>
      intro users
      rw [List.foldl_cons, ih, pushGroupId]
      refine updateLast_map_posixUid _ _ ?_ users
      intro u
      rfl

theorem processGroups_users_posixUid (bc : BuilderConfig) :
    ∀ (rawGroups : List RawGroup) (users : List User) (st : AllocState)
      (gs : List Group) (users' : List User) (st' : AllocState),
      processGroups bc rawGroups users st = some (gs, users', st') →
      users'.map User.posixUid = users.map User.posixUid := by
  intro rawGroups
  induction rawGroups with
  | nil =>
      intro users st gs users' st' h
      rw [processGroups] at h
      simp only [Option.some.injEq, Prod.mk.injEq] at h
      obtain ⟨-, h2, -⟩ := h
      rw [← h2]
  | cons g rest ih =>
      intro users st gs users' st' h
      rw [processGroups] at h
      rcases halloc : allocate bc.gidCfg st ("group:" ++ g.id) with _ | ⟨r, st1⟩
      · rw [halloc] at h; exact Option.noConfusion h
      · rw [halloc] at h
        dsimp only at h
        rcases hrec : processGroups bc rest
            ((groupFinalMembers bc g).foldl (fun us uid => pushGroupId g.id uid us) users) st1
          with _ | ⟨gs1, users1, st2⟩
        · rw [hrec] at h; exact Option.noConfusion h
        · rw [hrec] at h
          simp only [Option.some.injEq, Prod.mk.injEq] at h
          obtain ⟨-, h2, -⟩ := h
          rw [← h2]
          have htail := ih _ _ _ _ _ hrec
          rw [htail]
          exact foldl_pushGroupId_map_posixUid g.id _ users

/-- C9: starting from a well-formed uid-allocator state and adapter users
with pairwise-distinct ids, every user of a built snapshot has
`posixUid` (its `uidNumber`) strictly above the allocator floor, and no
two distinct users of the snapshot share a `posixUid`. -/
theorem buildSnapshot_uid_floor_and_unique (bc : BuilderConfig) (rawUsers : List RawUser)
    (rawGroups : List RawGroup) (uidSt gidSt : AllocState) (seq : Nat) (now : String)
    (snap : Snapshot) (uidSt' gidSt' : AllocState) (seq' : Nat)
    (hwf : AllocWF bc.uidCfg uidSt)
    (hids : (rawUsers.map RawUser.id).Nodup)
    (hbuild : buildSnapshot bc rawUsers rawGroups uidSt gidSt seq now
      = some (snap, uidSt', gidSt', seq')) :
    (∀ u ∈ snap.users, bc.uidCfg.floor < u.posixUid) ∧
    snap.users.Pairwise (fun a b => a.posixUid ≠ b.posixUid) := by
  rw [buildSnapshot] at hbuild
  rcases hu : allocUsers bc now (rawUsers.filter fun u => u.enabled) uidSt
    with _ | ⟨users, uidSt1⟩
  · rw [hu] at hbuild; exact Option.noConfusion hbuild
  · rw [hu] at hbuild
    dsimp only at hbuild
    rcases hp : processGroups bc rawGroups users gidSt with _ | ⟨groups, users', gidSt1⟩
    · rw [hp] at hbuild; exact Option.noConfusion hbuild
    · rw [hp] at hbuild
      dsimp only at hbuild
      rcases hs : (if bc.enabledFeatures.contains "synthetic_primary_group" then
          createSyntheticPrimaryGroups bc users' gidSt1 else some ([], gidSt1))
        with _ | ⟨synth, gidSt2⟩
      · rw [hs] at hbuild; exact Option.noConfusion hbuild
      · rw [hs] at hbuild
        simp only [Option.some.injEq, Prod.mk.injEq] at hbuild
        obtain ⟨hsnap, -⟩ := hbuild
        have husers : snap.users = users' := by rw [← hsnap]
        have hspec := allocUsers_spec bc now _ uidSt users uidSt1 hwf hu
        have hmap := processGroups_users_posixUid bc rawGroups users gidSt groups users'
          gidSt1 hp
        have hid2 : ((rawUsers.filter fun u => u.enabled).map RawUser.id).Nodup :=
          hids.sublist (List.Sublist.map _ (List.filter_sublist _))
        have husid : (users.map User.id).Nodup := by rw [hspec.2.1]; exact hid2
        have hpw_id : users.Pairwise (fun a b => a.id ≠ b.id) := List.pairwise_map.mp husid
        have hpw_uid : users.Pairwise (fun a b => a.posixUid ≠ b.posixUid) := by
          refine List.Pairwise.imp_of_mem ?_ hpw_id
          intro a b ha hb hne he
          have hka := (hspec.2.2.2 a ha).2
          have hkb := (hspec.2.2.2 b hb).2
          have h1 := hspec.1.consistKI _ _ hka
          have h2 := hspec.1.consistKI _ _ hkb
          rw [he] at h1
          have h3 := Option.some.inj (h1.symm.trans h2)
          exact hne (string_append_left_cancel h3)
        constructor
        · intro u hu'
          rw [husers] at hu'
          have humem : u.posixUid ∈ users'.map User.posixUid :=
            List.mem_map_of_mem _ hu'
          rw [hmap] at humem
          rcases List.mem_map.mp humem with ⟨v, hv, hvp⟩
          have := (hspec.2.2.2 v hv).1
          omega
        · rw [husers]
          have hnodup_users : (users.map User.posixUid).Nodup :=
            List.pairwise_map.mpr hpw_uid
          have hnodup' : (users'.map User.posixUid).Nodup := by
            rw [hmap]; exact hnodup_users
          exact List.pairwise_map.mp hnodup'

theorem buildSnapshot_uid_floor_and_unique_witness :
    buildSnapshot smallBC [c9Raw1, c9Raw2] [] (AllocState.init { salt := "u" })
        (AllocState.init { salt := "g" }) 0 "t"
      = some (c9Snap, c9USt, AllocState.init { salt := "g" }, 1) ∧
    10000 < c3User.posixUid ∧ 10000 < c9User2.posixUid ∧
    c3User.posixUid ≠ c9User2.posixUid := by
  have hwf : AllocWF smallBC.uidCfg (AllocState.init { salt := "u" }) := by
    refine ⟨?_, ?_, ?_, by decide⟩ <;> intro a b h <;> exact Option.noConfusion h
  have hids : (([c9Raw1, c9Raw2] : List RawUser).map RawUser.id).Nodup := by decide
  have hb : buildSnapshot smallBC [c9Raw1, c9Raw2] [] (AllocState.init { salt := "u" })
      (AllocState.init { salt := "g" }) 0 "t"
    = some (c9Snap, c9USt, AllocState.init { salt := "g" }, 1) := by decide
  have h := buildSnapshot_uid_floor_and_unique smallBC [c9Raw1, c9Raw2] []
    (AllocState.init { salt := "u" }) (AllocState.init { salt := "g" }) 0 "t"
    c9Snap c9USt (AllocState.init { salt := "g" }) 1 hwf hids hb
  refine ⟨hb, ?_, ?_, ?_⟩
  · exact h.1 c3User (by decide)
  · exact h.1 c9User2 (by decide)
  · have hpw := h.2
    rw [show c9Snap.users = [c3User, c9User2] from rfl] at hpw
    exact (List.pairwise_cons.mp hpw).1 c9User2 (by simp)

theorem foldl_pushOpt_eq_filterMap {α β : Type} (f : α → Option β) :
    ∀ (l : List α) (acc : List β),
      l.foldl (fun a x => pushOpt a (f x)) acc = acc ++ l.filterMap f := by
  intro l
  induction l with
  | nil => intro acc; simp
  | cons x xs ih =>
      intro acc
      rw [List.foldl_cons]
      cases hf : f x with
      | none =>
          rw [List.filterMap_cons, hf]
          rw [show pushOpt acc none = acc from rfl]
          exact ih acc
      | some e =>
          rw [List.filterMap_cons, hf]
          rw [show pushOpt acc (some e) = acc ++ [e] from rfl]
          rw [ih]
          simp

/-- C7 (amended): within a single scope pass (any search other than the
RootDSE special case), `executeSearch` emits the matching user entries
first, in the snapshot's list order, then the matching group entries in
the snapshot's list order, then — when the scope is not base — the users
OU and groups OU entries last; no sorting by `uid` or `cn` is applied. -/
theorem executeSearch_emits_users_then_groups_then_ous (baseDN : String) (users : List User)
    (groups : List Group) (request : SearchRequest)
    (h : ¬ (request.baseObject = "" ∧ request.scope = 0)) :
    executeSearch baseDN users groups request =
      users.filterMap (userSearchEntry baseDN groups request) ++
      groups.filterMap (groupSearchEntry baseDN users request) ++
      (if request.scope ≠ 0 then createOUEntries baseDN request else []) := by
  rw [executeSearch, if_neg h]
  dsimp only
  rw [foldl_pushOpt_eq_filterMap (userSearchEntry baseDN groups request) users []]
  rw [foldl_pushOpt_eq_filterMap (groupSearchEntry baseDN users request) groups]
  rw [List.nil_append, List.append_assoc]

theorem executeSearch_emits_users_then_groups_then_ous_witness :
    (¬ (c7Request.baseObject = "" ∧ c7Request.scope = 0)) ∧
    executeSearch c5Srv.baseDN c7Snap.users c7Snap.groups c7Request =
      c7Snap.users.filterMap (userSearchEntry c5Srv.baseDN c7Snap.groups c7Request) ++
      c7Snap.groups.filterMap (groupSearchEntry c5Srv.baseDN c7Snap.users c7Request) ++
      (if c7Request.scope ≠ 0 then createOUEntries c5Srv.baseDN c7Request else []) :=
  ⟨by decide,
   executeSearch_emits_users_then_groups_then_ous c5Srv.baseDN c7Snap.users c7Snap.groups
     c7Request (by decide)⟩

/-- C7 (counterexample): on a subtree `(objectClass=*)` search over a
snapshot listing `bob` before `alice`, the emitted order is the two users
in snapshot order (descending uid) followed by the OU entries last — the
first emitted entry is a user entry, not an organizational unit, and users
are not in ascending uid order. -/
theorem executeSearch_order_counterexample :
    (executeSearch c5Srv.baseDN c7Snap.users c7Snap.groups c7Request).map
        (fun e => e.objectName)
      = ["uid=bob,ou=users,dc=x", "uid=alice,ou=users,dc=x",
         "ou=users,dc=x", "ou=groups,dc=x"] ∧
    ("uid=bob,ou=users,dc=x" ≠ "ou=users,dc=x") ∧
    ("uid=bob,ou=users,dc=x" ≠ "ou=groups,dc=x") := by
  refine ⟨by decide, by decide, by decide⟩

/-- C5 (amended): the effective result cap is the server-configured
`sizeLimit` lowered by the client's `sizeLimit` when that is positive, and
the streamed entries are the pre-limit entries truncated to that cap; but
the terminating SearchResultDone carries `sizeLimitExceeded` (4) if and
only if the pre-limit entry count reaches the server-side `sizeLimit` —
truncation caused by the client's lower limit alone terminates with
`success` (0). -/
theorem handleSearch_limits (cfg : LDAPServerConfig) (snap : Snapshot) (request : SearchRequest)
    (hscope : isBaseObjectInScope cfg.baseDN (normalizeSearchRequest request).baseObject
      = true) :
    (handleSearch cfg (some snap) request).entries.length =
      min (executeSearch cfg.baseDN snap.users snap.groups
            (normalizeSearchRequest request)).length
        (min cfg.sizeLimit
          (if (normalizeSearchRequest request).sizeLimit > 0
            then (normalizeSearchRequest request).sizeLimit else cfg.sizeLimit)) ∧
    ((handleSearch cfg (some snap) request).doneCode = sizeLimitExceededCode ↔
      cfg.sizeLimit ≤ (executeSearch cfg.baseDN snap.users snap.groups
        (normalizeSearchRequest request)).length) := by
  rw [handleSearch]
  dsimp only
  rw [hscope]
  rw [if_neg (by decide : ¬((!true) = true))]
  constructor
  · rw [applyLimits]
    dsimp only
    rw [List.length_take]
    exact Nat.min_comm _ _
  · by_cases hge : cfg.sizeLimit ≤ (executeSearch cfg.baseDN snap.users snap.groups
        (normalizeSearchRequest request)).length
    · rw [if_pos hge]
      simp [hge]
    · rw [if_neg hge]
      simp only [successCode, sizeLimitExceededCode]
      constructor
      · intro hcontra; exact absurd hcontra (by decide)
      · intro hcontra; exact absurd hcontra hge

theorem handleSearch_limits_witness :
    isBaseObjectInScope c5Srv.baseDN (normalizeSearchRequest c5Req).baseObject = true ∧
    ((handleSearch c5Srv (some c7Snap) c5Req).entries.length =
      min (executeSearch c5Srv.baseDN c7Snap.users c7Snap.groups
            (normalizeSearchRequest c5Req)).length
        (min c5Srv.sizeLimit
          (if (normalizeSearchRequest c5Req).sizeLimit > 0
            then (normalizeSearchRequest c5Req).sizeLimit else c5Srv.sizeLimit)) ∧
     ((handleSearch c5Srv (some c7Snap) c5Req).doneCode = sizeLimitExceededCode ↔
      c5Srv.sizeLimit ≤ (executeSearch c5Srv.baseDN c7Snap.users c7Snap.groups
        (normalizeSearchRequest c5Req)).length)) :=
  ⟨by decide, handleSearch_limits c5Srv c7Snap c5Req (by decide)⟩

/-- C5 (counterexample): a client sizeLimit of 1 against a suffix with
four eligible entries (two users and two OUs, server limit 1000) streams
exactly one SearchResultEntry but the Done carries `success` (0), not
`sizeLimitExceeded` (4), because the code compares the pre-limit count
against the server limit only. -/
theorem handleSearch_client_limit_counterexample :
    (handleSearch c5Srv (some c7Snap) c5Req).entries.length = 1 ∧
    (executeSearch c5Srv.baseDN c7Snap.users c7Snap.groups
        (normalizeSearchRequest c5Req)).length = 4 ∧
    (handleSearch c5Srv (some c7Snap) c5Req).doneCode = successCode ∧
    successCode ≠ sizeLimitExceededCode := by
  refine ⟨by decide, by decide, by decide, by decide⟩

/-- C6 (amended): a filter block whose tag the codec does not recognize
(anything outside and/or/not/equality/substrings/present, e.g.
extensibleMatch tag 9) is decoded as a Present filter — on the block's
decoded text when non-empty, else the `(objectClass=*)` fallback — and the
search then terminates with `success`/`sizeLimitExceeded`/`unavailable`;
no SearchResultDone ever carries `unwillingToPerform` (53). -/
theorem unknown_filter_tag_fallback :
    (∀ b : RawBlock, b.tag ∉ ([0, 1, 2, 3, 4, 7] : List Nat) →
      decodeSearchFilter b = .present (if b.text ≠ "" then b.text else "objectClass")) ∧
    (∀ (cfg : LDAPServerConfig) (snapshot : Option Snapshot) (request : SearchRequest),
      (handleSearch cfg snapshot request).doneCode ≠ unwillingToPerformCode) := by
  constructor
  · intro b hb
    cases b with
    | node tag constructed text children =>
        simp only [RawBlock.tag, List.mem_cons, List.not_mem_nil, or_false, not_or] at hb
        obtain ⟨h0, h1, h2, h3, h4, h7⟩ := hb
        rw [decodeSearchFilter, parseFilter.eq_def]
        dsimp only
        rw [if_neg h0, if_neg h1, if_neg h2, if_neg h3, if_neg h4, if_neg h7]
        by_cases htext : text = ""
        · subst htext
          rw [if_neg (by simp)]
          simp [RawBlock.text]
        · rw [if_pos htext]
          simp only [RawBlock.text, ne_eq, htext, not_false_eq_true, if_true]
          rfl
  · intro cfg snapshot request
    cases snapshot with
    | none =>
        rw [handleSearch]
        decide
    | some snap =>
        rw [handleSearch]
        dsimp only
        by_cases hsc : isBaseObjectInScope cfg.baseDN (normalizeSearchRequest request).baseObject
        · rw [hsc]
          rw [if_neg (by decide : ¬((!true) = true))]
          dsimp only
          by_cases hge : (executeSearch cfg.baseDN snap.users snap.groups
              (normalizeSearchRequest request)).length ≥ cfg.sizeLimit
          · rw [if_pos hge]; decide
          · rw [if_neg hge]; decide
        · rw [Bool.eq_false_iff.mpr hsc]
          rw [if_pos (by decide : (!false) = true)]
          decide

theorem unknown_filter_tag_fallback_witness :
    (c6Block.tag ∉ ([0, 1, 2, 3, 4, 7] : List Nat)) ∧
    decodeSearchFilter c6Block = .present "pager" ∧
    (handleSearch c5Srv (some c7Snap)
        { c5Req with filter := decodeSearchFilter c6Block }).doneCode
      ≠ unwillingToPerformCode := by
  refine ⟨by decide, ?_, ?_⟩
  · have h := unknown_filter_tag_fallback.1 c6Block (by decide)
    rw [h]
    rw [if_pos (by decide : c6Block.text ≠ "")]
    rfl
  · exact unknown_filter_tag_fallback.2 c5Srv (some c7Snap)
      { c5Req with filter := decodeSearchFilter c6Block }

/-- C6 (counterexample): a SearchRequest whose filter block carries the
unrecognized extensibleMatch tag 9 terminates with a SearchResultDone
carrying `success` (0) — the unknown filter is decoded to a Present filter
that matches nothing here — not `unwillingToPerform` (53). -/
theorem unknown_filter_counterexample :
    (handleSearch c5Srv (some c7Snap)
        { c5Req with filter := decodeSearchFilter c6Block }).doneCode = successCode ∧
    successCode ≠ unwillingToPerformCode := by
  refine ⟨by decide, by decide⟩

end Ldaptoid
